import Mathlib

/-!
Verification of the graph layout and overlap-resolution engine of the
coauthors repository (src/src/lib/layoutCore.ts, src/src/workers/layout.worker.ts,
src/src/lib/layoutWorker.ts).

Embedding conventions:
* JavaScript numbers appearing in the layout arithmetic are modeled as exact
  rationals (ℚ).  The transcendental / algebraic library functions Math.sin,
  Math.sqrt and Math.log10 are not exactly representable; they are passed as
  explicit function parameters (sinP, sqrtP, log10P : ℚ → ℚ), and theorems
  that depend on their defining properties assume those properties as
  hypotheses at the points where the code uses them.
* Node identifiers are JavaScript strings; nothing in the layout code inspects
  them beyond equality, so they are modeled as an arbitrary type α with
  decidable equality.
* JavaScript objects used as string-keyed dictionaries (the position map, the
  node-size Map, the spatial-grid cells) are modeled as association lists in
  insertion order; property assignment `obj[k] = v` is `setEntry` (overwrite if
  present, append otherwise) and in-place mutation of an existing entry is
  `updateEntry` (which never adds a key).
* graphology semantics used by the code: `new Graph()` builds a mixed graph
  with `multi: false` and `allowSelfLoops: true`; `addNode` throws on a
  duplicate id (so the model is faithful on inputs whose node ids are
  pairwise distinct, which the spec's data model requires); `addEdge(s, t)`
  adds a directed edge, and with `allowSelfLoops: true` a self-loop
  `addEdge(s, s)` succeeds; `hasEdge(s, t)` tests presence of an edge from
  s to t.  `forceAtlas2.assign` is an external library call that mutates only
  the x/y attributes of the nodes; it is modeled as an explicit function
  parameter `fa2`.
-/

namespace CoauthorLayout

variable {α : Type} [DecidableEq α]

/-- Input node record (layoutCore.ts NodeData): the layout engine reads only
the id and the optional paperCount.  `paperCount` is `Option ℚ` (absent =
`undefined`). -/
structure NData (α : Type) where
  id : α
  paperCount : Option ℚ
deriving DecidableEq, Repr

/-- Input edge record (layoutCore.ts EdgeData): source, target and optional
weight. -/
structure EData (α : Type) where
  src : α
  tgt : α
  weight : Option ℚ
deriving DecidableEq, Repr

/-- Simulation node as stored in the graphology graph by createGraph:
id plus the attribute object \x7b x, y, size, fixed \x7d. -/
structure SimNode (α : Type) where
  id : α
  x : ℚ
  y : ℚ
  size : ℚ
  fixed : Bool
deriving DecidableEq, Repr

/-- The graphology graph built by createGraph: nodes in insertion order and
edges (source, target, weight) in insertion order. -/
structure GraphM (α : Type) where
  nodes : List (SimNode α)
  edges : List (α × α × ℚ)
deriving DecidableEq, Repr

/-- The position map (LayoutResult): a string-keyed object, modeled as an
association list id ↦ (x, y) in property insertion order. -/
abbrev PosMap (α : Type) := List (α × ℚ × ℚ)

/-- Association-list lookup (first matching key, as for unique-key JS
objects). -/
def alookup {β : Type} (k : α) : List (α × β) → Option β
  | [] => none
  | (k2, v) :: t => if k2 = k then some v else alookup k t

/-- Lookup with a default value. -/
def lookupD {β : Type} (l : List (α × β)) (k : α) (d : β) : β :=
  (alookup k l).getD d

/-- In-place mutation of an existing entry: replaces the value at the first
occurrence of the key and never adds a key (JS `obj[k].x = …` on a present
key). -/
def updateEntry {β : Type} (k : α) (v : β) : List (α × β) → List (α × β)
  | [] => []
  | (k2, v2) :: t => if k2 = k then (k2, v) :: t else (k2, v2) :: updateEntry k v t

/-- JS object property assignment `obj[k] = v`: overwrite if the key exists,
otherwise append the new property. -/
def setEntry {β : Type} (k : α) (v : β) (l : List (α × β)) : List (α × β) :=
  if (alookup k l).isSome then updateEntry k v l else l ++ [(k, v)]

/-- JavaScript `paperCount || 1`: 1 when the field is undefined or 0. -/
def pcOrOne : Option ℚ → ℚ
  | none => 1
  | some q => if q = 0 then 1 else q

/-- JavaScript destructuring default `weight = 1`: 1 only when the field is
undefined (0 is kept). -/
def wtOrOne : Option ℚ → ℚ
  | none => 1
  | some q => q

/-- Node size derived from the paper count: `10 + Math.sqrt(paperCount || 1) * 5`
(layoutCore.ts line 113). -/
def nodeSize (sqrtP : ℚ → ℚ) (pc : Option ℚ) : ℚ :=
  10 + sqrtP (pcOrOne pc) * 5

/-- layoutCore.ts seededRandom: `x = Math.sin(seed) * 10000; return x - Math.floor(x)`. -/
def seededRandom (sinP : ℚ → ℚ) (seed : ℚ) : ℚ :=
  sinP seed * 10000 - ⌊sinP seed * 10000⌋

/-- Initial placement of the node at index i performed by createGraph's
`nodes.forEach((node, i) => …)` body (layoutCore.ts lines 103-115). -/
def placeNode (sinP sqrtP : ℚ → ℚ) (w h : ℚ) (cid : α) (i : ℕ) (nd : NData α) :
    SimNode α :=
  let centerX := w / 2
  let centerY := h / 2
  let spread := min w h * (2 / 5)
  let rand1 := seededRandom sinP ((i : ℚ) * (1337 / 100))
  let rand2 := seededRandom sinP ((i : ℚ) * (4242 / 100) + 100)
  ⟨nd.id,
   if nd.id = cid then centerX else centerX + (rand1 - 1 / 2) * spread * 2,
   if nd.id = cid then centerY else centerY + (rand2 - 1 / 2) * spread * 2,
   nodeSize sqrtP nd.paperCount,
   decide (nd.id = cid)⟩

/-- graphology `graph.hasNode`. -/
def hasNodeL (g : List (SimNode α)) (k : α) : Bool :=
  g.any fun n => decide (n.id = k)

/-- graphology `graph.hasEdge(s, t)` on the edges added by createGraph. -/
def hasEdgeL (es : List (α × α × ℚ)) (s t : α) : Bool :=
  es.any fun e => decide (e.1 = s ∧ e.2.1 = t)

/-- One step of createGraph's edge loop (layoutCore.ts lines 118-123):
`if (graph.hasNode(source) && graph.hasNode(target) && !graph.hasEdge(source, target))
 graph.addEdge(source, target, { weight: Math.sqrt(weight) })`.
Note the guard does not compare source with target, and graphology's default
`allowSelfLoops: true` lets `addEdge(s, s)` succeed, so a self-loop whose
endpoint exists is added. -/
def addEdgeStep (sqrtP : ℚ → ℚ) (g : GraphM α) (e : EData α) : GraphM α :=
  if hasNodeL g.nodes e.src && hasNodeL g.nodes e.tgt && !hasEdgeL g.edges e.src e.tgt then
    ⟨g.nodes, g.edges ++ [(e.src, e.tgt, sqrtP (wtOrOne e.weight))]⟩
  else g

/-- layoutCore.ts createGraph: place every node (indexed forEach), then fold
the edge loop over the input edges. -/
def createGraph (sinP sqrtP : ℚ → ℚ) (nodes : List (NData α)) (edges : List (EData α))
    (w h : ℚ) (cid : α) : GraphM α :=
  let ns := nodes.enum.map fun p => placeNode sinP sqrtP w h cid p.1 p.2
  edges.foldl (addEdgeStep sqrtP) ⟨ns, []⟩

/-- ForceAtlas2 settings object (layoutCore.ts FA2_BASE_SETTINGS shape).
Fields in order: barnesHutOptimize, barnesHutTheta, gravity, scalingRatio,
strongGravityMode, slowDown, adjustSizes, edgeWeightInfluence, linLogMode,
outboundAttractionDistribution. -/
structure FA2Settings where
  barnesHutOptimize : Bool
  barnesHutTheta : ℚ
  gravity : ℚ
  scalingRatio : ℚ
  strongGravityMode : Bool
  slowDown : ℚ
  adjustSizes : Bool
  edgeWeightInfluence : ℚ
  linLogMode : Bool
  outboundAttractionDistribution : Bool
deriving DecidableEq, Repr

/-- layoutCore.ts FA2_BASE_SETTINGS. -/
def FA2_BASE_SETTINGS : FA2Settings :=
  ⟨true, 1 / 2, 1 / 2, 6, false, 2, true, 1 / 2, true, true⟩

/-- layoutCore.ts getAdaptiveFA2Settings: each branch is the object spread
`{ ...FA2_BASE_SETTINGS, overrides }`, written out field by field. -/
def getAdaptiveFA2Settings (nodeCount : ℕ) : FA2Settings :=
  if nodeCount ≤ 200 then
    FA2_BASE_SETTINGS
  else if nodeCount ≤ 500 then
    -- { ...base, barnesHutTheta: 0.6, slowDown: 3 }
    ⟨true, 3 / 5, 1 / 2, 6, false, 3, true, 1 / 2, true, true⟩
  else if nodeCount ≤ 1000 then
    -- { ...base, barnesHutTheta: 0.8, slowDown: 4, scalingRatio: 8 }
    ⟨true, 4 / 5, 1 / 2, 8, false, 4, true, 1 / 2, true, true⟩
  else
    -- { ...base, barnesHutTheta: 1.0, slowDown: 5, scalingRatio: 10, gravity: 0.3 }
    ⟨true, 1, 3 / 10, 10, false, 5, true, 1 / 2, true, true⟩

/-- Minimum x over the graph's nodes.  The source folds `Math.min` starting
from Infinity; for a nonempty node list that equals folding from the first
element, which is how it is written here (an empty graph produces an empty
position map in scalePositions, so the value for [] is irrelevant). -/
def bboxMinX : List (SimNode α) → ℚ
  | [] => 0
  | n :: t => t.foldl (fun m s => min m s.x) n.x

/-- Maximum x over the graph's nodes (fold of Math.max, see bboxMinX). -/
def bboxMaxX : List (SimNode α) → ℚ
  | [] => 0
  | n :: t => t.foldl (fun m s => max m s.x) n.x

/-- Minimum y over the graph's nodes (fold of Math.min, see bboxMinX). -/
def bboxMinY : List (SimNode α) → ℚ
  | [] => 0
  | n :: t => t.foldl (fun m s => min m s.y) n.y

/-- Maximum y over the graph's nodes (fold of Math.max, see bboxMinX). -/
def bboxMaxY : List (SimNode α) → ℚ
  | [] => 0
  | n :: t => t.foldl (fun m s => max m s.y) n.y

/-- The x-axis denominator `(maxX - minX || 1)` of layoutCore.ts line 152:
JavaScript `|| 1` replaces a zero value by 1. -/
def scaleDenomX (g : List (SimNode α)) : ℚ :=
  if bboxMaxX g - bboxMinX g = 0 then 1 else bboxMaxX g - bboxMinX g

/-- The y-axis denominator `(maxY - minY || 1)` of layoutCore.ts line 153. -/
def scaleDenomY (g : List (SimNode α)) : ℚ :=
  if bboxMaxY g - bboxMinY g = 0 then 1 else bboxMaxY g - bboxMinY g

/-- layoutCore.ts scalePositions: bounding box, aspect-preserving scale with
padding 80, centering offset, and per-node assignment into the positions
object, with the center node pinned to the exact viewport center. -/
def scalePositions (g : List (SimNode α)) (w h : ℚ) (cid : α) : PosMap α :=
  let centerX := w / 2
  let centerY := h / 2
  let padding : ℚ := 80
  let scaleX := (w - 2 * padding) / scaleDenomX g
  let scaleY := (h - 2 * padding) / scaleDenomY g
  let scale := min scaleX scaleY
  let offsetX := (w - (bboxMaxX g - bboxMinX g) * scale) / 2 - bboxMinX g * scale
  let offsetY := (h - (bboxMaxY g - bboxMinY g) * scale) / 2 - bboxMinY g * scale
  g.foldl
    (fun acc n =>
      setEntry n.id
        (if n.id = cid then (centerX, centerY)
         else (n.x * scale + offsetX, n.y * scale + offsetY))
        acc)
    []

/-- JavaScript `nodeSizes.get(id) || 10` used in resolveOverlaps: default 10
when the key is absent or the stored size is 0. -/
def sizeOrTen (sizes : List (α × ℚ)) (k : α) : ℚ :=
  match alookup k sizes with
  | none => 10
  | some s => if s = 0 then 10 else s

/-- SpatialGrid.getCellKey: the template string key encodes the integer pair
(floor(x / cellSize), floor(y / cellSize)) injectively, so the key is modeled
as the pair itself. -/
def cellKey (cs x y : ℚ) : ℤ × ℤ :=
  (⌊x / cs⌋, ⌊y / cs⌋)

/-- Append a node id to a cell's list, creating the cell on first use
(SpatialGrid.rebuild body). -/
def gridInsert (key : ℤ × ℤ) (a : α) : List ((ℤ × ℤ) × List α) → List ((ℤ × ℤ) × List α)
  | [] => [(key, [a])]
  | (k, l) :: t => if k = key then (k, l ++ [a]) :: t else (k, l) :: gridInsert key a t

/-- SpatialGrid.rebuild: insert every position-map key into its cell, in
key order. -/
def buildGrid (cs : ℚ) (pos : PosMap α) : List ((ℤ × ℤ) × List α) :=
  pos.foldl (fun g kv => gridInsert (cellKey cs kv.2.1 kv.2.2) kv.1 g) []

/-- The integer interval [lo, hi] as a list, for the dx/dy loops of
getNearbyNodes. -/
def intRange (lo hi : ℤ) : List ℤ :=
  (List.range (hi - lo + 1).toNat).map fun k => lo + k

/-- SpatialGrid.getNearbyNodes: the cell lists are the (possibly stale) index
built at the last rebuild, while the node's own cell coordinates are computed
from its current position (the class keeps a live reference to the mutated
positions object). -/
def getNearby (cs : ℚ) (grid : List ((ℤ × ℤ) × List α)) (pos : PosMap α) (a : α)
    (searchRadius : ℚ) : List α :=
  let p := lookupD pos a (0, 0)
  let r : ℤ := ⌈searchRadius / cs⌉
  let cx := ⌊p.1 / cs⌋
  let cy := ⌊p.2 / cs⌋
  (intRange (-r) r).foldl
    (fun acc dx =>
      (intRange (-r) r).foldl
        (fun acc2 dy =>
          match alookup (cx + dx, cy + dy) grid with
          | none => acc2
          | some cell => acc2 ++ cell.filter fun b => decide (b ≠ a))
        acc)
    []

/-- Parameters of one resolveOverlaps run that stay fixed across its passes. -/
structure RCfg (α : Type) where
  sqrtP : ℚ → ℚ
  cid : α
  sizes : List (α × ℚ)
  minDistance : ℚ
  useGrid : Bool
  cellSize : ℚ
  searchRadius : ℚ
  nodeIds : List α

/-- The body of resolveOverlaps' inner candidate loop (layoutCore.ts lines
279-308): recompute the pair's separation from the current positions, and if
the pair overlaps with positive distance, push the two nodes apart (the
non-center node absorbs the full push when the other node is the center).
The state is (positions, moved). -/
def processPair (cfg : RCfg α) (idA : α) (st : PosMap α × Bool) (idB : α) :
    PosMap α × Bool :=
  let pos := st.1
  let posA := lookupD pos idA (0, 0)
  let sizeA := sizeOrTen cfg.sizes idA
  let posB := lookupD pos idB (0, 0)
  let sizeB := sizeOrTen cfg.sizes idB
  let dx := posB.1 - posA.1
  let dy := posB.2 - posA.2
  let distSq := dx * dx + dy * dy
  let minDist := (sizeA + sizeB) / 2 + cfg.minDistance
  if distSq < minDist * minDist ∧ 0 < distSq then
    let dist := cfg.sqrtP distSq
    let overlap := minDist - dist
    let pushX := dx / dist * overlap * (1 / 2)
    let pushY := dy / dist * overlap * (1 / 2)
    if idB = cfg.cid then
      (updateEntry idA (posA.1 - pushX * 2, posA.2 - pushY * 2) pos, true)
    else
      (updateEntry idB (posB.1 + pushX, posB.2 + pushY)
        (updateEntry idA (posA.1 - pushX, posA.2 - pushY) pos), true)
  else (pos, st.2)

/-- The body of resolveOverlaps' loop over idA: skip the center node, gather
candidates (spatial grid above 200 nodes, brute force below), and fold the
pair interaction over them. -/
def passOverA (cfg : RCfg α) (grid : List ((ℤ × ℤ) × List α)) (st : PosMap α × Bool)
    (idA : α) : PosMap α × Bool :=
  if idA = cfg.cid then st
  else
    let candidates :=
      if cfg.useGrid then getNearby cfg.cellSize grid st.1 idA cfg.searchRadius
      else cfg.nodeIds.filter fun b => decide (b ≠ idA)
    candidates.foldl (processPair cfg idA) st

/-- One full pass of resolveOverlaps over all node ids, starting with
moved = false. -/
def onePass (cfg : RCfg α) (grid : List ((ℤ × ℤ) × List α)) (pos : PosMap α) :
    PosMap α × Bool :=
  cfg.nodeIds.foldl (passOverA cfg grid) (pos, false)

/-- The pass loop of resolveOverlaps (`for iter … if (!moved) break`), with
the spatial grid rebuilt after every fifth moving pass.  The fuel argument is
the remaining number of passes, iter the source's loop index. -/
def iterGo (cfg : RCfg α) : ℕ → ℕ → List ((ℤ × ℤ) × List α) → PosMap α → PosMap α
  | 0, _, _, pos => pos
  | fuel + 1, iter, grid, pos =>
    let pr := onePass cfg grid pos
    let grid2 :=
      if cfg.useGrid && pr.2 && decide (iter % 5 = 4) then buildGrid cfg.cellSize pr.1
      else grid
    if pr.2 then iterGo cfg fuel (iter + 1) grid2 pr.1 else pr.1

/-- layoutCore.ts resolveOverlaps.  `iterations` scales down for graphs above
500 nodes using Math.floor(100 / Math.log10(nodeCount)); Math.log10 is the
abstract parameter log10P.  (JavaScript Math.max(20, v) on a possibly
negative v agrees with max 20 (Int.toNat ⌊v⌋) since both give 20.) -/
def resolveOverlaps (sqrtP log10P : ℚ → ℚ) (pos : PosMap α) (nodes : List (NData α))
    (cid : α) (minDistance : ℚ) (maxIterations : ℕ) : PosMap α :=
  let nodeCount := nodes.length
  let iterations :=
    if nodeCount > 500 then
      min maxIterations (max 20 (Int.toNat ⌊(100 : ℚ) / log10P (nodeCount : ℚ)⌋))
    else maxIterations
  let sizes := nodes.foldl (fun acc n => setEntry n.id (nodeSize sqrtP n.paperCount) acc) []
  let maxSize := nodes.foldl (fun m n => max m (nodeSize sqrtP n.paperCount)) 0
  let nodeIds := pos.map Prod.fst
  let searchRadius := maxSize + minDistance
  let useGrid := nodeCount > 200
  let grid0 := if useGrid then buildGrid searchRadius pos else []
  iterGo ⟨sqrtP, cid, sizes, minDistance, useGrid, searchRadius, searchRadius, nodeIds⟩
    iterations 0 grid0 pos

/-- layout.worker.ts computeLayout: snapshot of the node positions before a
batch (a Map over the graph's unique node keys, modeled as the association
list in node order). -/
def snapshot (g : List (SimNode α)) : PosMap α :=
  g.map fun n => (n.id, (n.x, n.y))

/-- layout.worker.ts computeLayout: total per-node Euclidean displacement of
the new graph against the snapshot (nodes missing from the snapshot
contribute 0, matching `if (prev)`). -/
def totalMovement (sqrtP : ℚ → ℚ) (prev : PosMap α) : List (SimNode α) → ℚ
  | [] => 0
  | n :: t =>
    (match alookup n.id prev with
     | some p => sqrtP ((n.x - p.1) * (n.x - p.1) + (n.y - p.2) * (n.y - p.2))
     | none => 0) + totalMovement sqrtP prev t

/-- layout.worker.ts line 279: `nodeCount > 500 ? 150 : 100`. -/
def batchSizeFor (n : ℕ) : ℕ :=
  if n > 500 then 150 else 100

/-- layout.worker.ts line 280: `nodeCount > 1000 ? 1500 : nodeCount > 500 ? 2000 : 3000`. -/
def maxIterationsFor (n : ℕ) : ℕ :=
  if n > 1000 then 1500 else if n > 500 then 2000 else 3000

/-- layout.worker.ts line 281: `nodeCount > 500 ? 1.0 * nodeCount : 0.5 * nodeCount`. -/
def convergenceThresholdFor (n : ℕ) : ℚ :=
  if n > 500 then 1 * (n : ℚ) else (1 / 2) * (n : ℚ)

/-- The batch loop of layout.worker.ts computeLayout (lines 283-309):
`while (totalIterations < maxIterations)` snapshot, run one fa2 batch, add
batchSize to the iteration count, and stop early when the displacement falls
below the threshold.  Returns the final graph and totalIterations.  The fuel
argument only bounds the recursion: since batchSize ≥ 100 the loop runs at
most ⌈maxIter / batchSize⌉ ≤ maxIter batches, so fuel = maxIter + 1 never
truncates it. -/
def convLoop (fa2 : ℕ → FA2Settings → List (SimNode α) → List (SimNode α))
    (st : FA2Settings) (batchSize maxIter : ℕ) (threshold : ℚ) (sqrtP : ℚ → ℚ) :
    ℕ → ℕ → List (SimNode α) → List (SimNode α) × ℕ
  | 0, total, g => (g, total)
  | fuel + 1, total, g =>
    if total < maxIter then
      let prev := snapshot g
      let g2 := fa2 batchSize st g
      let total2 := total + batchSize
      if totalMovement sqrtP prev g2 < threshold then (g2, total2)
      else convLoop fa2 st batchSize maxIter threshold sqrtP fuel total2 g2
    else (g, total)

/-- layout.worker.ts computeLayout up to the end of the batch loop: build the
graph and drive the external ForceAtlas2 stepper (parameter fa2) in batches.
Returns the simulated graph and the number of iterations performed. -/
def computeLayoutCore (sinP sqrtP : ℚ → ℚ)
    (fa2 : ℕ → FA2Settings → List (SimNode α) → List (SimNode α))
    (nodes : List (NData α)) (edges : List (EData α)) (w h : ℚ) (cid : α) :
    List (SimNode α) × ℕ :=
  let n := nodes.length
  let g := (createGraph sinP sqrtP nodes edges w h cid).nodes
  convLoop fa2 (getAdaptiveFA2Settings n) (batchSizeFor n) (maxIterationsFor n)
    (convergenceThresholdFor n) sqrtP (maxIterationsFor n + 1) 0 g

/-- layout.worker.ts computeLayout: the full pipeline — simulate, normalize
with scalePositions, then resolveOverlaps with minDistance 10 (above 500
nodes) or 15 and maxIterations 50. -/
def computeLayout (sinP sqrtP log10P : ℚ → ℚ)
    (fa2 : ℕ → FA2Settings → List (SimNode α) → List (SimNode α))
    (nodes : List (NData α)) (edges : List (EData α)) (w h : ℚ) (cid : α) :
    PosMap α :=
  let n := nodes.length
  let g := (computeLayoutCore sinP sqrtP fa2 nodes edges w h cid).1
  let positions := scalePositions g w h cid
  resolveOverlaps sqrtP log10P positions nodes cid (if n > 500 then 10 else 15) 50

/-- Observer for the number of simulation iterations computeLayout's batch
loop performs (the loop's totalIterations at exit). -/
def computeLayoutIterations (sinP sqrtP : ℚ → ℚ)
    (fa2 : ℕ → FA2Settings → List (SimNode α) → List (SimNode α))
    (nodes : List (NData α)) (edges : List (EData α)) (w h : ℚ) (cid : α) : ℕ :=
  (computeLayoutCore sinP sqrtP fa2 nodes edges w h cid).2

/-!
Model of the Execution Host (src/src/lib/layoutWorker.ts computeLayoutAsync)
for requests on the worker path (length ≥ WORKER_THRESHOLD, worker available).

The module-scope state is the single `pendingPromise`/`pendingResolve` slot;
each request's promise is identified by the request's sequence number.
JavaScript semantics embedded:
* submit: if `pendingPromise` is null the request immediately installs its own
  promise in the slot and posts its compute message to the worker; otherwise it
  registers a continuation on the CURRENT value of `pendingPromise` (that one
  promise — `await pendingPromise` — not on the whole chain of prior requests).
* finish: the worker (a single serial thread) completes the oldest queued
  compute message and its result message is delivered: the `onmessage` handler
  resolves whatever `pendingResolve` currently holds and clears the slot, then
  the event loop runs every continuation registered on the resolved promise in
  FIFO order; each of those continuations installs its own promise in the slot
  and posts its message.
The 30s timeout path and worker onerror are not exercised by the schedules
considered here and are omitted.
-/

/-- State of the Execution Host model: the pending-promise slot, the
registered await-continuations (requester, awaited request), the worker's
unprocessed message queue, the dispatch log, the settled promises, and the
next request number. -/
structure HostState where
  pending : Option ℕ
  waiting : List (ℕ × ℕ)
  queue : List ℕ
  dispatched : List ℕ
  settled : List ℕ
  nextReq : ℕ
deriving DecidableEq, Repr

/-- Events of the Execution Host model: a caller submits a request, or the
worker finishes the oldest queued computation and its result is delivered. -/
inductive HostEv where
  | submit
  | finish
deriving DecidableEq, Repr

/-- A request's synchronous dispatch section: install its promise in the
pending slot and post the compute message to the worker. -/
def dispatchOne (s : HostState) (r : ℕ) : HostState :=
  ⟨some r, s.waiting, s.queue ++ [r], s.dispatched ++ [r], s.settled, s.nextReq⟩

/-- One transition of the Execution Host model. -/
def hostStep (s : HostState) : HostEv → HostState
  | .submit =>
    let r := s.nextReq
    let s2 : HostState := ⟨s.pending, s.waiting, s.queue, s.dispatched, s.settled, r + 1⟩
    match s.pending with
    | none => dispatchOne s2 r
    | some p => ⟨s2.pending, s2.waiting ++ [(r, p)], s2.queue, s2.dispatched, s2.settled, s2.nextReq⟩
  | .finish =>
    match s.queue with
    | [] => s
    | _ :: rest =>
      match s.pending with
      | none => ⟨none, s.waiting, rest, s.dispatched, s.settled, s.nextReq⟩
      | some p =>
        let released := s.waiting.filter fun wp => decide (wp.2 = p)
        let remaining := s.waiting.filter fun wp => decide (wp.2 ≠ p)
        released.foldl (fun acc wp => dispatchOne acc wp.1)
          ⟨none, remaining, rest, s.dispatched, s.settled ++ [p], s.nextReq⟩

/-- Initial state of the Execution Host model. -/
def hostInit : HostState :=
  ⟨none, [], [], [], [], 0⟩

/-- Run the Execution Host model on a schedule of events. -/
def hostRun (evs : List HostEv) : HostState :=
  evs.foldl hostStep hostInit

/-- A ForceAtlas2 stand-in that translates every node by (3, 4): each batch
moves every node by exactly 5 units. -/
def shiftG : List (SimNode α) → List (SimNode α) :=
  List.map fun n => ⟨n.id, n.x + 3, n.y + 4, n.size, n.fixed⟩

/-- shiftG packaged with the fa2 stepper interface (ignores the batch size
and the settings). -/
def shiftFA2 : ℕ → FA2Settings → List (SimNode α) → List (SimNode α) :=
  fun _ _ g => shiftG g

/-- A Math.sqrt stand-in correct at the only argument the shiftFA2 runs
produce: 3² + 4² = 25 ↦ 5. -/
def sqrtFive : ℚ → ℚ :=
  fun q => if q = 25 then 5 else 0

/-- A 600-node input (ids 0..599), in the 501–1000 adaptive tier. -/
def c3Nodes : List (NData ℕ) :=
  (List.range 600).map fun i => ⟨i, none⟩

/-- A Math.sqrt stand-in correct at every perfect-square argument produced by
one resolveOverlaps pass on the three-node configuration
\x7b0 ↦ (0,0), 1 ↦ (0,0), 2 ↦ (20,0)\x7d with paperCount 1 (sizes 15) and
minDistance 15: 1 ↦ 1, 400 ↦ 20, 25 ↦ 5, 625/4 ↦ 25/2. -/
def c10sqrt : ℚ → ℚ :=
  fun q => if q = 1 then 1 else if q = 400 then 20 else if q = 25 then 5
    else if q = 625 / 4 then 25 / 2 else 0

/-! ### Association-list helper lemmas -/

theorem alookup_append {β : Type} (k : α) (l1 l2 : List (α × β)) :
    alookup k (l1 ++ l2) =
      match alookup k l1 with
      | some v => some v
      | none => alookup k l2 := by
  induction l1 with
  | nil => simp [alookup]
  | cons p t ih =>
    obtain ⟨k2, v2⟩ := p
    by_cases hk : k2 = k <;> simp [alookup, hk, ih]

theorem alookup_updateEntry_ne {β : Type} (k k2 : α) (v : β) (l : List (α × β))
    (h : k ≠ k2) : alookup k2 (updateEntry k v l) = alookup k2 l := by
  induction l with
  | nil => rfl
  | cons p t ih =>
    obtain ⟨k3, v3⟩ := p
    by_cases hk : k3 = k
    · subst hk
      have : k3 ≠ k2 := h
      simp [updateEntry, alookup, this]
    · have h2 : ¬(k2 = k) := fun hh => h hh.symm
      by_cases hk2 : k3 = k2 <;> simp [updateEntry, alookup, hk, hk2, h2, ih]

theorem alookup_updateEntry_self {β : Type} (k : α) (v : β) (l : List (α × β))
    (h : (alookup k l).isSome) : alookup k (updateEntry k v l) = some v := by
  induction l with
  | nil => simp [alookup] at h
  | cons p t ih =>
    obtain ⟨k3, v3⟩ := p
    by_cases hk : k3 = k
    · simp [updateEntry, alookup, hk]
    · simp [alookup, hk] at h
      simp [updateEntry, alookup, hk, ih h]

theorem keys_updateEntry {β : Type} (k : α) (v : β) (l : List (α × β)) :
    (updateEntry k v l).map Prod.fst = l.map Prod.fst := by
  induction l with
  | nil => rfl
  | cons p t ih =>
    obtain ⟨k3, v3⟩ := p
    by_cases hk : k3 = k <;> simp [updateEntry, hk, ih]

theorem mem_updateEntry {β : Type} (kv : α × β) (k : α) (v : β) (l : List (α × β))
    (h : kv ∈ updateEntry k v l) : kv ∈ l ∨ kv = (k, v) := by
  induction l with
  | nil => simp [updateEntry] at h
  | cons p t ih =>
    obtain ⟨k3, v3⟩ := p
    by_cases hk : k3 = k
    · subst hk
      simp [updateEntry] at h
      rcases h with h | h
      · right; simp [h]
      · left; simp [h]
    · simp [updateEntry, hk] at h
      rcases h with h | h
      · left; simp [h]
      · rcases ih h with h2 | h2
        · left; simp [h2]
        · right; exact h2

theorem alookup_setEntry_self {β : Type} (k : α) (v : β) (l : List (α × β)) :
    alookup k (setEntry k v l) = some v := by
  unfold setEntry
  split
  · exact alookup_updateEntry_self k v l (by assumption)
  · rename_i h
    have hnone : alookup k l = none := by
      cases hl : alookup k l
      · rfl
      · rw [hl] at h; simp at h
    rw [alookup_append, hnone]
    simp [alookup]

theorem alookup_setEntry_ne {β : Type} (k k2 : α) (v : β) (l : List (α × β))
    (h : k ≠ k2) : alookup k2 (setEntry k v l) = alookup k2 l := by
  unfold setEntry
  split
  · exact alookup_updateEntry_ne k k2 v l h
  · rw [alookup_append]
    have : alookup k2 [(k, v)] = none := by simp [alookup, h]
    cases hl : alookup k2 l <;> simp [hl, this]

theorem mem_setEntry {β : Type} (kv : α × β) (k : α) (v : β) (l : List (α × β))
    (h : kv ∈ setEntry k v l) : kv ∈ l ∨ kv = (k, v) := by
  unfold setEntry at h
  split at h
  · exact mem_updateEntry kv k v l h
  · simp at h
    rcases h with h | h
    · left; exact h
    · right; simp [h]

/-! ### Claim C7: adaptive ForceAtlas2 settings -/

/-- C7: getAdaptiveFA2Settings implements the four-tier schedule — theta 1/2
for N ≤ 200, 3/5 for 201–500, 4/5 with scalingRatio raised to 8 for 501–1000,
and 1 with scalingRatio 10 and gravity reduced to 3/10 above 1000; slowDown
(damping) is non-decreasing across tiers; for a 1200-node graph the coarsest
tier is selected and the batch loop uses batch size 150 with iteration
ceiling 1500. -/
theorem c7_adaptive_settings (n m : ℕ) (hnm : n ≤ m) :
    ((getAdaptiveFA2Settings n).barnesHutTheta =
      if n ≤ 200 then 1 / 2 else if n ≤ 500 then 3 / 5 else if n ≤ 1000 then 4 / 5 else 1)
    ∧ ((getAdaptiveFA2Settings n).scalingRatio =
      if n ≤ 500 then 6 else if n ≤ 1000 then 8 else 10)
    ∧ ((getAdaptiveFA2Settings n).gravity = if n ≤ 1000 then 1 / 2 else 3 / 10)
    ∧ ((getAdaptiveFA2Settings n).slowDown =
      if n ≤ 200 then 2 else if n ≤ 500 then 3 else if n ≤ 1000 then 4 else 5)
    ∧ (getAdaptiveFA2Settings n).slowDown ≤ (getAdaptiveFA2Settings m).slowDown
    ∧ (getAdaptiveFA2Settings 500).scalingRatio < (getAdaptiveFA2Settings 501).scalingRatio
    ∧ (getAdaptiveFA2Settings 1000).scalingRatio < (getAdaptiveFA2Settings 1001).scalingRatio
    ∧ (getAdaptiveFA2Settings 1001).gravity < (getAdaptiveFA2Settings 1000).gravity
    ∧ (getAdaptiveFA2Settings 1200).barnesHutTheta = 1
    ∧ batchSizeFor 1200 = 150 ∧ maxIterationsFor 1200 = 1500 := by
  refine ⟨?_, ?_, ?_, ?_, ?_,
    by norm_num [getAdaptiveFA2Settings, FA2_BASE_SETTINGS],
    by norm_num [getAdaptiveFA2Settings, FA2_BASE_SETTINGS],
    by norm_num [getAdaptiveFA2Settings, FA2_BASE_SETTINGS],
    by norm_num [getAdaptiveFA2Settings, FA2_BASE_SETTINGS],
    by norm_num [batchSizeFor], by norm_num [maxIterationsFor]⟩
  · unfold getAdaptiveFA2Settings FA2_BASE_SETTINGS
    split_ifs <;> rfl
  · unfold getAdaptiveFA2Settings FA2_BASE_SETTINGS
    split_ifs <;> first | rfl | omega
  · unfold getAdaptiveFA2Settings FA2_BASE_SETTINGS
    split_ifs <;> first | rfl | omega
  · unfold getAdaptiveFA2Settings FA2_BASE_SETTINGS
    split_ifs <;> rfl
  · unfold getAdaptiveFA2Settings FA2_BASE_SETTINGS
    split_ifs <;> first | omega | norm_num

/-- Witness for C7 at n = 100, m = 1200. -/
theorem c7_witness :
    (100 : ℕ) ≤ 1200 ∧
    (((getAdaptiveFA2Settings 100).barnesHutTheta =
      if (100 : ℕ) ≤ 200 then 1 / 2 else if (100 : ℕ) ≤ 500 then 3 / 5
      else if (100 : ℕ) ≤ 1000 then 4 / 5 else 1)
    ∧ ((getAdaptiveFA2Settings 100).scalingRatio =
      if (100 : ℕ) ≤ 500 then 6 else if (100 : ℕ) ≤ 1000 then 8 else 10)
    ∧ ((getAdaptiveFA2Settings 100).gravity = if (100 : ℕ) ≤ 1000 then 1 / 2 else 3 / 10)
    ∧ ((getAdaptiveFA2Settings 100).slowDown =
      if (100 : ℕ) ≤ 200 then 2 else if (100 : ℕ) ≤ 500 then 3
      else if (100 : ℕ) ≤ 1000 then 4 else 5)
    ∧ (getAdaptiveFA2Settings 100).slowDown ≤ (getAdaptiveFA2Settings 1200).slowDown
    ∧ (getAdaptiveFA2Settings 500).scalingRatio < (getAdaptiveFA2Settings 501).scalingRatio
    ∧ (getAdaptiveFA2Settings 1000).scalingRatio < (getAdaptiveFA2Settings 1001).scalingRatio
    ∧ (getAdaptiveFA2Settings 1001).gravity < (getAdaptiveFA2Settings 1000).gravity
    ∧ (getAdaptiveFA2Settings 1200).barnesHutTheta = 1
    ∧ batchSizeFor 1200 = 150 ∧ maxIterationsFor 1200 = 1500) :=
  ⟨by decide, c7_adaptive_settings 100 1200 (by decide)⟩

/-! ### Claim C4: malformed-edge handling in createGraph -/

/-- C4 counterexample: the claim says a self-loop edge is rejected at graph
construction so that no self-loop is ever present in the simulation graph.
On the input with one node 0 and the single edge (0, 0), createGraph's guard
passes (both endpoints exist, no prior edge) and graphology's default
`allowSelfLoops: true` lets the edge through, so the constructed graph does contain
the self-loop (0, 0). -/
theorem c4_counterexample :
    ((createGraph (α := ℕ) (fun _ => 1 / 2) (fun q => if q = 1 then 1 else 0)
        [⟨0, none⟩] [⟨0, 0, none⟩] 400 400 9).edges = [(0, 0, 1)])
    ∧ ((createGraph (α := ℕ) (fun _ => 1 / 2) (fun q => if q = 1 then 1 else 0)
        [⟨0, none⟩] [⟨0, 0, none⟩] 400 400 9).edges.any fun e => decide (e.1 = e.2.1)) = true := by
  constructor <;> decide

/-- C4 amended: createGraph tolerates malformed edges by skipping — an edge
whose source or target is not in the node set leaves the graph unchanged
(no exception) — but a self-loop edge whose endpoint exists is NOT rejected:
when no equal edge is present yet, the self-loop is added to the simulation
graph (graphology's default allowSelfLoops allows it). -/
theorem c4_amended (sqrtP : ℚ → ℚ) :
    (∀ (g : GraphM α) (e : EData α),
      hasNodeL g.nodes e.src = false ∨ hasNodeL g.nodes e.tgt = false →
      addEdgeStep sqrtP g e = g)
    ∧ (∀ (g : GraphM α) (s : α) (w2 : Option ℚ),
      hasNodeL g.nodes s = true → hasEdgeL g.edges s s = false →
      addEdgeStep sqrtP g ⟨s, s, w2⟩ = ⟨g.nodes, g.edges ++ [(s, s, sqrtP (wtOrOne w2))]⟩) := by
  constructor
  · intro g e h
    unfold addEdgeStep
    rcases h with h | h <;> simp [h]
  · intro g s w2 h1 h2
    unfold addEdgeStep
    simp [h1, h2]

/-- Witness for C4 amended: a one-node graph; the edge (5, 0) has an unknown
source and is skipped, while the self-loop (0, 0) is added. -/
theorem c4_witness :
    (addEdgeStep (α := ℕ) (fun q => q) ⟨[⟨0, 0, 0, 10, false⟩], []⟩ ⟨5, 0, none⟩
      = ⟨[⟨0, 0, 0, 10, false⟩], []⟩)
    ∧ (addEdgeStep (α := ℕ) (fun q => q) ⟨[⟨0, 0, 0, 10, false⟩], []⟩ ⟨0, 0, none⟩
      = ⟨[⟨0, 0, 0, 10, false⟩], [(0, 0, 1)]⟩) := by
  constructor
  · exact (c4_amended (fun q => q)).1 ⟨[⟨0, 0, 0, 10, false⟩], []⟩ ⟨5, 0, none⟩
      (Or.inl (by decide))
  · have h := (c4_amended (α := ℕ) (fun q => q)).2 ⟨[⟨0, 0, 0, 10, false⟩], []⟩ 0 none
      (by decide) (by decide)
    simpa [wtOrOne] using h

/-! ### Claim C9: Execution Host request serialization -/

/-- C9 (code bug): with three requests submitted back-to-back while the first
is computing, delivery of the first result releases BOTH queued continuations
(each awaited only the first request's promise), so request 2's and request
3's compute messages are both posted immediately: two computations are in
flight at once (worker queue length 2), and request 2 is dispatched while
request 1's successor — request 1 itself settled, but request 3 is dispatched
while request 2 is still unsettled.  This contradicts the claim that at most
one computation is in flight and that a request's dispatch waits for every
prior request to settle. -/
theorem c9_serialization_bug :
    (hostRun [.submit, .submit, .submit, .finish]).queue = [1, 2]
    ∧ (hostRun [.submit, .submit, .submit, .finish]).queue.length = 2
    ∧ (hostRun [.submit, .submit, .submit, .finish]).dispatched = [0, 1, 2]
    ∧ (hostRun [.submit, .submit, .submit, .finish]).settled = [0]
    ∧ 2 ∈ (hostRun [.submit, .submit, .submit, .finish]).dispatched
    ∧ 1 ∉ (hostRun [.submit, .submit, .submit, .finish]).settled := by
  refine ⟨by decide, by decide, by decide, by decide, by decide, by decide⟩

/-! ### Claim C5: no division by zero in scalePositions -/

omit [DecidableEq α] in
theorem foldl_op_const (op : ℚ → ℚ → ℚ) (f : SimNode α → ℚ) (x0 : ℚ)
    (hop : op x0 x0 = x0) (t : List (SimNode α)) (h : ∀ n ∈ t, f n = x0) :
    t.foldl (fun m s => op m (f s)) x0 = x0 := by
  induction t with
  | nil => rfl
  | cons n t ih =>
    have hn : f n = x0 := h n (by simp)
    simp only [List.foldl_cons, hn, hop]
    exact ih fun s hs => h s (by simp [hs])

omit [DecidableEq α] in
theorem bboxX_const (g : List (SimNode α)) (x0 : ℚ) (hg : g ≠ [])
    (h : ∀ n ∈ g, n.x = x0) : bboxMinX g = x0 ∧ bboxMaxX g = x0 := by
  cases g with
  | nil => exact absurd rfl hg
  | cons n t =>
    have hn : n.x = x0 := h n (by simp)
    have ht : ∀ s ∈ t, s.x = x0 := fun s hs => h s (by simp [hs])
    constructor
    · show t.foldl (fun m s => min m s.x) n.x = x0
      rw [hn]
      exact foldl_op_const min (fun s => s.x) x0 (min_self x0) t ht
    · show t.foldl (fun m s => max m s.x) n.x = x0
      rw [hn]
      exact foldl_op_const max (fun s => s.x) x0 (max_self x0) t ht

omit [DecidableEq α] in
theorem bboxY_const (g : List (SimNode α)) (y0 : ℚ) (hg : g ≠ [])
    (h : ∀ n ∈ g, n.y = y0) : bboxMinY g = y0 ∧ bboxMaxY g = y0 := by
  cases g with
  | nil => exact absurd rfl hg
  | cons n t =>
    have hn : n.y = y0 := h n (by simp)
    have ht : ∀ s ∈ t, s.y = y0 := fun s hs => h s (by simp [hs])
    constructor
    · show t.foldl (fun m s => min m s.y) n.y = y0
      rw [hn]
      exact foldl_op_const min (fun s => s.y) y0 (min_self y0) t ht
    · show t.foldl (fun m s => max m s.y) n.y = y0
      rw [hn]
      exact foldl_op_const max (fun s => s.y) y0 (max_self y0) t ht

theorem mem_foldl_setEntry {β : Type} (g : List (SimNode α)) (f : SimNode α → β) :
    ∀ (init : List (α × β)) (kv : α × β),
      kv ∈ g.foldl (fun acc n => setEntry n.id (f n) acc) init →
      kv ∈ init ∨ ∃ n ∈ g, kv = (n.id, f n) := by
  induction g with
  | nil => exact fun init kv h => Or.inl h
  | cons n t ih =>
    intro init kv h
    simp only [List.foldl_cons] at h
    rcases ih _ kv h with h2 | h2
    · rcases mem_setEntry kv n.id (f n) init h2 with h3 | h3
      · exact Or.inl h3
      · exact Or.inr ⟨n, by simp, h3⟩
    · obtain ⟨n2, hn2, he⟩ := h2
      exact Or.inr ⟨n2, by simp [hn2], he⟩

/-- C5: when the bounding box of the simulated positions has zero width or
zero height, scalePositions uses a denominator of 1 for that axis instead of
dividing by zero; the denominators are never zero (so in exact arithmetic no
output coordinate is the result of a division by zero — the model's
counterpart of "no NaN / Infinity"), and on fully coincident positions every
entry of the returned map is exactly the viewport center. -/
theorem c5_degenerate_normalization (g : List (SimNode α)) (w h : ℚ) (cid : α)
    (x0 y0 : ℚ) :
    ((bboxMaxX g - bboxMinX g = 0 → scaleDenomX g = 1)
      ∧ (bboxMaxY g - bboxMinY g = 0 → scaleDenomY g = 1)
      ∧ scaleDenomX g ≠ 0 ∧ scaleDenomY g ≠ 0)
    ∧ ((∀ n ∈ g, n.x = x0 ∧ n.y = y0) →
        ∀ kv ∈ scalePositions g w h cid, kv.2 = (w / 2, h / 2)) := by
  constructor
  · refine ⟨fun hd => by simp [scaleDenomX, hd], fun hd => by simp [scaleDenomY, hd], ?_, ?_⟩
    · unfold scaleDenomX
      split_ifs with h1
      · exact one_ne_zero
      · exact h1
    · unfold scaleDenomY
      split_ifs with h1
      · exact one_ne_zero
      · exact h1
  · intro hc kv hkv
    simp only [scalePositions] at hkv
    rcases mem_foldl_setEntry g _ [] kv hkv with h2 | h2
    · simp at h2
    · obtain ⟨n, hng, hkv2⟩ := h2
      have hne : g ≠ [] := List.ne_nil_of_mem hng
      obtain ⟨hbx1, hbx2⟩ := bboxX_const g x0 hne fun s hs => (hc s hs).1
      obtain ⟨hby1, hby2⟩ := bboxY_const g y0 hne fun s hs => (hc s hs).2
      subst hkv2
      by_cases hcen : n.id = cid
      · simp [hcen]
      · have hnx : n.x = x0 := (hc n hng).1
        have hny : n.y = y0 := (hc n hng).2
        simp only [hcen, if_false]
        rw [hnx, hny, hbx1, hbx2, hby1, hby2]
        simp only [Prod.mk.injEq]
        constructor <;> ring

/-- Witness for C5: a single-node graph (a degenerate, zero-area bounding
box); the denominators are 1 and the node is mapped to the viewport center. -/
theorem c5_witness :
    (bboxMaxX ([⟨0, 5, 7, 10, false⟩] : List (SimNode ℕ)) -
        bboxMinX ([⟨0, 5, 7, 10, false⟩] : List (SimNode ℕ)) = 0)
    ∧ scaleDenomX ([⟨0, 5, 7, 10, false⟩] : List (SimNode ℕ)) = 1
    ∧ scaleDenomY ([⟨0, 5, 7, 10, false⟩] : List (SimNode ℕ)) = 1
    ∧ scaleDenomX ([⟨0, 5, 7, 10, false⟩] : List (SimNode ℕ)) ≠ 0
    ∧ ∀ kv ∈ scalePositions ([⟨0, 5, 7, 10, false⟩] : List (SimNode ℕ)) 400 400 9,
        kv.2 = ((400 : ℚ) / 2, (400 : ℚ) / 2) :=
  ⟨by simp [bboxMaxX, bboxMinX],
   (c5_degenerate_normalization [⟨0, 5, 7, 10, false⟩] 400 400 9 5 7).1.1
     (by simp [bboxMaxX, bboxMinX]),
   (c5_degenerate_normalization [⟨0, 5, 7, 10, false⟩] 400 400 9 5 7).1.2.1
     (by simp [bboxMaxY, bboxMinY]),
   (c5_degenerate_normalization [⟨0, 5, 7, 10, false⟩] 400 400 9 5 7).1.2.2.1,
   (c5_degenerate_normalization [⟨0, 5, 7, 10, false⟩] 400 400 9 5 7).2 (by decide)⟩

/-! ### Claim C8: deterministic seeded initial placement -/

theorem nodes_addEdgeStep (sqrtP : ℚ → ℚ) (g : GraphM α) (e : EData α) :
    (addEdgeStep sqrtP g e).nodes = g.nodes := by
  unfold addEdgeStep
  split <;> rfl

theorem nodes_foldl_addEdge (sqrtP : ℚ → ℚ) (edges : List (EData α)) (g : GraphM α) :
    (edges.foldl (addEdgeStep sqrtP) g).nodes = g.nodes := by
  induction edges generalizing g with
  | nil => rfl
  | cons e t ih => rw [List.foldl_cons, ih, nodes_addEdgeStep]

theorem createGraph_nodes (sinP sqrtP : ℚ → ℚ) (nodes : List (NData α))
    (edges : List (EData α)) (w h : ℚ) (cid : α) :
    (createGraph sinP sqrtP nodes edges w h cid).nodes =
      nodes.enum.map fun p => placeNode sinP sqrtP w h cid p.1 p.2 := by
  unfold createGraph
  rw [nodes_foldl_addEdge]

theorem createGraph_nodes_getElem (sinP sqrtP : ℚ → ℚ) (nodes : List (NData α))
    (edges : List (EData α)) (w h : ℚ) (cid : α) (i : ℕ) (nd : NData α)
    (hnd : nodes[i]? = some nd) :
    (createGraph sinP sqrtP nodes edges w h cid).nodes[i]? =
      some (placeNode sinP sqrtP w h cid i nd) := by
  rw [createGraph_nodes]
  simp [List.getElem?_enum, hnd]

/-- C8: initial placement is deterministic and a pure function of the index —
the node at index i of createGraph's node list has coordinates given exactly
by the seeded formula (center pinned at the viewport center, every other node
offset from the center by (frac(sin(i·13.37)·10000) − 1/2) and
(frac(sin(i·42.42 + 100)·10000) − 1/2) scaled by the spread
0.4·min(width, height)), and two independent runs — even with different node
payloads, edge sets and size functions — produce identical coordinates at
every index whose center-flag agrees. -/
theorem c8_deterministic_placement (sinP sqrtP sqrtP2 : ℚ → ℚ)
    (nodes nodes2 : List (NData α)) (edges edges2 : List (EData α)) (w h : ℚ)
    (cid : α) (i : ℕ) (nd nd2 : NData α)
    (h1 : nodes[i]? = some nd) (h2 : nodes2[i]? = some nd2) :
    (((createGraph sinP sqrtP nodes edges w h cid).nodes[i]?).map fun s => (s.x, s.y))
      = some (if nd.id = cid then (w / 2, h / 2)
          else
            (w / 2 + (seededRandom sinP ((i : ℚ) * (1337 / 100)) - 1 / 2) * (min w h * (2 / 5)) * 2,
             h / 2 + (seededRandom sinP ((i : ℚ) * (4242 / 100) + 100) - 1 / 2) * (min w h * (2 / 5)) * 2))
    ∧ ((nd.id = cid ↔ nd2.id = cid) →
        (((createGraph sinP sqrtP nodes edges w h cid).nodes[i]?).map fun s => (s.x, s.y))
          = ((createGraph sinP sqrtP2 nodes2 edges2 w h cid).nodes[i]?).map fun s => (s.x, s.y)) := by
  rw [createGraph_nodes_getElem sinP sqrtP nodes edges w h cid i nd h1,
    createGraph_nodes_getElem sinP sqrtP2 nodes2 edges2 w h cid i nd2 h2]
  constructor
  · by_cases hc : nd.id = cid <;> simp [placeNode, hc]
  · intro hiff
    by_cases hc : nd.id = cid
    · have hc2 : nd2.id = cid := hiff.mp hc
      simp [placeNode, hc, hc2]
    · have hc2 : ¬nd2.id = cid := fun hh => hc (hiff.mpr hh)
      simp [placeNode, hc, hc2]

/-- Witness for C8: two 2-node runs with different payloads, edges and sqrt
stand-ins; index 1 is not the center in either run. -/
theorem c8_witness :
    (((createGraph (α := ℕ) (fun _ => 1 / 2) (fun q => if q = 1 then 1 else 0)
        [⟨0, none⟩, ⟨1, none⟩] [] 400 400 0).nodes[1]?).map fun s => (s.x, s.y))
      = some (if (1 : ℕ) = 0 then ((400 : ℚ) / 2, (400 : ℚ) / 2)
          else
            ((400 : ℚ) / 2 + (seededRandom (fun _ => 1 / 2) ((1 : ℚ) * (1337 / 100)) - 1 / 2) *
               (min (400 : ℚ) 400 * (2 / 5)) * 2,
             (400 : ℚ) / 2 + (seededRandom (fun _ => 1 / 2) ((1 : ℚ) * (4242 / 100) + 100) - 1 / 2) *
               (min (400 : ℚ) 400 * (2 / 5)) * 2))
    ∧ (((createGraph (α := ℕ) (fun _ => 1 / 2) (fun q => if q = 1 then 1 else 0)
        [⟨0, none⟩, ⟨1, none⟩] [] 400 400 0).nodes[1]?).map fun s => (s.x, s.y))
      = ((createGraph (α := ℕ) (fun _ => 1 / 2) (fun q => q)
        [⟨0, some 3⟩, ⟨1, some 9⟩] [⟨0, 1, some 4⟩] 400 400 0).nodes[1]?).map fun s => (s.x, s.y) := by
  have h := c8_deterministic_placement (α := ℕ) (fun _ => 1 / 2)
    (fun q => if q = 1 then 1 else 0) (fun q => q)
    [⟨0, none⟩, ⟨1, none⟩] [⟨0, some 3⟩, ⟨1, some 9⟩] [] [⟨0, 1, some 4⟩]
    400 400 0 1 ⟨1, none⟩ ⟨1, some 9⟩ (by decide) (by decide)
  exact ⟨h.1, h.2 (by decide)⟩

/-! ### Overlap-resolver invariants: the center's entry and the key list -/

theorem processPair_center (cfg : RCfg α) (idA : α) (st : PosMap α × Bool) (idB : α)
    (hA : idA ≠ cfg.cid) :
    alookup cfg.cid (processPair cfg idA st idB).1 = alookup cfg.cid st.1 := by
  simp only [processPair]
  split
  · split
    · simp only
      rw [alookup_updateEntry_ne idA cfg.cid _ _ hA]
    · rename_i hB
      simp only
      rw [alookup_updateEntry_ne idB cfg.cid _ _ hB,
        alookup_updateEntry_ne idA cfg.cid _ _ hA]
  · rfl

theorem foldl_processPair_center (cfg : RCfg α) (idA : α) (hA : idA ≠ cfg.cid)
    (cands : List α) :
    ∀ st, alookup cfg.cid (cands.foldl (processPair cfg idA) st).1 = alookup cfg.cid st.1 := by
  induction cands with
  | nil => intro st; rfl
  | cons b t ih =>
    intro st
    rw [List.foldl_cons, ih, processPair_center cfg idA st b hA]

theorem passOverA_center (cfg : RCfg α) (grid : List ((ℤ × ℤ) × List α))
    (st : PosMap α × Bool) (idA : α) :
    alookup cfg.cid (passOverA cfg grid st idA).1 = alookup cfg.cid st.1 := by
  unfold passOverA
  split
  · rfl
  · rename_i hA
    exact foldl_processPair_center cfg idA hA _ st

theorem onePass_center (cfg : RCfg α) (grid : List ((ℤ × ℤ) × List α)) (pos : PosMap α) :
    alookup cfg.cid (onePass cfg grid pos).1 = alookup cfg.cid pos := by
  have hgen : ∀ (ids : List α) (st : PosMap α × Bool),
      alookup cfg.cid (ids.foldl (passOverA cfg grid) st).1 = alookup cfg.cid st.1 := by
    intro ids
    induction ids with
    | nil => intro st; rfl
    | cons a t ih =>
      intro st
      rw [List.foldl_cons, ih, passOverA_center]
  exact hgen cfg.nodeIds (pos, false)

theorem iterGo_center (cfg : RCfg α) (c : α) (hc : c = cfg.cid) :
    ∀ (fuel iter : ℕ) (grid : List ((ℤ × ℤ) × List α)) (pos : PosMap α),
      alookup c (iterGo cfg fuel iter grid pos) = alookup c pos := by
  subst hc
  intro fuel
  induction fuel with
  | zero => intro iter grid pos; rfl
  | succ f ih =>
    intro iter grid pos
    simp only [iterGo]
    split
    · rw [ih, onePass_center]
    · rw [onePass_center]

theorem resolveOverlaps_center (sqrtP log10P : ℚ → ℚ) (pos : PosMap α)
    (nodes : List (NData α)) (cid : α) (minDistance : ℚ) (maxIterations : ℕ) :
    alookup cid (resolveOverlaps sqrtP log10P pos nodes cid minDistance maxIterations)
      = alookup cid pos := by
  simp only [resolveOverlaps]
  exact iterGo_center _ cid rfl _ _ _ _

theorem processPair_keys (cfg : RCfg α) (idA : α) (st : PosMap α × Bool) (idB : α) :
    (processPair cfg idA st idB).1.map Prod.fst = st.1.map Prod.fst := by
  simp only [processPair]
  split
  · split
    · simp only
      rw [keys_updateEntry]
    · simp only
      rw [keys_updateEntry, keys_updateEntry]
  · rfl

theorem foldl_processPair_keys (cfg : RCfg α) (idA : α) (cands : List α) :
    ∀ st, (cands.foldl (processPair cfg idA) st).1.map Prod.fst = st.1.map Prod.fst := by
  induction cands with
  | nil => intro st; rfl
  | cons b t ih =>
    intro st
    rw [List.foldl_cons, ih, processPair_keys]

theorem passOverA_keys (cfg : RCfg α) (grid : List ((ℤ × ℤ) × List α))
    (st : PosMap α × Bool) (idA : α) :
    (passOverA cfg grid st idA).1.map Prod.fst = st.1.map Prod.fst := by
  unfold passOverA
  split
  · rfl
  · exact foldl_processPair_keys cfg idA _ st

theorem onePass_keys (cfg : RCfg α) (grid : List ((ℤ × ℤ) × List α)) (pos : PosMap α) :
    (onePass cfg grid pos).1.map Prod.fst = pos.map Prod.fst := by
  have hgen : ∀ (ids : List α) (st : PosMap α × Bool),
      (ids.foldl (passOverA cfg grid) st).1.map Prod.fst = st.1.map Prod.fst := by
    intro ids
    induction ids with
    | nil => intro st; rfl
    | cons a t ih =>
      intro st
      rw [List.foldl_cons, ih, passOverA_keys]
  exact hgen cfg.nodeIds (pos, false)

theorem iterGo_keys (cfg : RCfg α) :
    ∀ (fuel iter : ℕ) (grid : List ((ℤ × ℤ) × List α)) (pos : PosMap α),
      (iterGo cfg fuel iter grid pos).map Prod.fst = pos.map Prod.fst := by
  intro fuel
  induction fuel with
  | zero => intro iter grid pos; rfl
  | succ f ih =>
    intro iter grid pos
    simp only [iterGo]
    split
    · rw [ih, onePass_keys]
    · rw [onePass_keys]

theorem resolveOverlaps_keys (sqrtP log10P : ℚ → ℚ) (pos : PosMap α)
    (nodes : List (NData α)) (cid : α) (minDistance : ℚ) (maxIterations : ℕ) :
    (resolveOverlaps sqrtP log10P pos nodes cid minDistance maxIterations).map Prod.fst
      = pos.map Prod.fst := by
  simp only [resolveOverlaps]
  exact iterGo_keys _ _ _ _ _

/-! ### scalePositions: the center entry and the key list -/

theorem alookup_foldl_setEntry_center {β : Type} (g : List (SimNode α))
    (f : SimNode α → β) (cid : α) (c : β) (hc : ∀ n ∈ g, n.id = cid → f n = c) :
    ∀ init : List (α × β),
      (cid ∈ g.map (·.id) ∨ alookup cid init = some c) →
      alookup cid (g.foldl (fun acc n => setEntry n.id (f n) acc) init) = some c := by
  induction g with
  | nil =>
    intro init h
    rcases h with h | h
    · simp at h
    · exact h
  | cons n t ih =>
    intro init h
    simp only [List.foldl_cons]
    by_cases hn : n.id = cid
    · refine ih (fun s hs he => hc s (by simp [hs]) he) _ (Or.inr ?_)
      rw [← hn, alookup_setEntry_self]
      rw [hc n (by simp) hn]
    · refine ih (fun s hs he => hc s (by simp [hs]) he) _ ?_
      rcases h with h | h
      · simp only [List.map_cons, List.mem_cons] at h
        rcases h with h | h
        · exact absurd h.symm hn
        · exact Or.inl (by simpa using h)
      · exact Or.inr (by rw [alookup_setEntry_ne n.id cid _ init hn]; exact h)

theorem scalePositions_center (g : List (SimNode α)) (w h : ℚ) (cid : α)
    (hc : cid ∈ g.map (·.id)) :
    alookup cid (scalePositions g w h cid) = some (w / 2, h / 2) := by
  simp only [scalePositions]
  exact alookup_foldl_setEntry_center g _ cid (w / 2, h / 2)
    (fun n _ hn => by simp [hn]) [] (Or.inl hc)

theorem keys_foldl_setEntry {β : Type} (g : List (SimNode α)) (f : SimNode α → β) :
    ∀ init : List (α × β), (g.map (·.id)).Nodup →
      (∀ n ∈ g, alookup n.id init = none) →
      (g.foldl (fun acc n => setEntry n.id (f n) acc) init).map Prod.fst
        = init.map Prod.fst ++ g.map (·.id) := by
  induction g with
  | nil => intro init _ _; simp
  | cons n t ih =>
    intro init hnd hdisj
    simp only [List.foldl_cons]
    have hn : alookup n.id init = none := hdisj n (by simp)
    have hset : setEntry n.id (f n) init = init ++ [(n.id, f n)] := by
      unfold setEntry
      rw [hn]
      simp
    have hhead : n.id ∉ t.map (·.id) := by
      have := hnd
      simp only [List.map_cons, List.nodup_cons] at this
      exact this.1
    rw [hset, ih (init ++ [(n.id, f n)]) (by
        simp only [List.map_cons, List.nodup_cons] at hnd
        exact hnd.2) ?_]
    · simp
    · intro s hs
      rw [alookup_append, hdisj s (by simp [hs])]
      have hne : n.id ≠ s.id := by
        intro he
        exact hhead (he ▸ List.mem_map_of_mem (·.id) hs)
      simp [alookup, hne]

theorem keys_scalePositions (g : List (SimNode α)) (w h : ℚ) (cid : α)
    (hnd : (g.map (·.id)).Nodup) :
    (scalePositions g w h cid).map Prod.fst = g.map (·.id) := by
  simp only [scalePositions]
  rw [keys_foldl_setEntry g _ [] hnd (fun n _ => rfl)]
  simp

/-! ### Ids through createGraph and the convergence loop -/

theorem createGraph_ids (sinP sqrtP : ℚ → ℚ) (nodes : List (NData α))
    (edges : List (EData α)) (w h : ℚ) (cid : α) :
    (createGraph sinP sqrtP nodes edges w h cid).nodes.map (·.id) = nodes.map (·.id) := by
  rw [createGraph_nodes, List.map_map]
  have : ((fun s : SimNode α => s.id) ∘ fun p : ℕ × NData α =>
      placeNode sinP sqrtP w h cid p.1 p.2) = (fun s : NData α => s.id) ∘ Prod.snd := by
    funext p
    rfl
  rw [this, ← List.map_map, List.enum_map_snd]

theorem convLoop_ids (fa2 : ℕ → FA2Settings → List (SimNode α) → List (SimNode α))
    (st : FA2Settings) (batchSize maxIter : ℕ) (threshold : ℚ) (sqrtP : ℚ → ℚ)
    (hfa2 : ∀ k s g, (fa2 k s g).map (·.id) = g.map (·.id)) :
    ∀ (fuel total : ℕ) (g : List (SimNode α)),
      (convLoop fa2 st batchSize maxIter threshold sqrtP fuel total g).1.map (·.id)
        = g.map (·.id) := by
  intro fuel
  induction fuel with
  | zero => intro total g; rfl
  | succ f ih =>
    intro total g
    simp only [convLoop]
    split
    · split
      · exact hfa2 _ _ _
      · rw [ih, hfa2]
    · rfl

/-! ### Claim C1: the center invariant of the full pipeline -/

/-- C1: for every input whose node ids are pairwise distinct and contain the
designated center id, the final position map produced by the layout pipeline
(scalePositions followed by resolveOverlaps, driven by any id-preserving
ForceAtlas2 stepper) maps the center id to exactly
(viewportWidth / 2, viewportHeight / 2). -/
theorem c1_center_invariant (sinP sqrtP log10P : ℚ → ℚ)
    (fa2 : ℕ → FA2Settings → List (SimNode α) → List (SimNode α))
    (nodes : List (NData α)) (edges : List (EData α)) (w h : ℚ) (cid : α)
    (_hnd : (nodes.map (·.id)).Nodup)
    (hcid : cid ∈ nodes.map (·.id))
    (hfa2 : ∀ k s g, (fa2 k s g).map (·.id) = g.map (·.id)) :
    alookup cid (computeLayout sinP sqrtP log10P fa2 nodes edges w h cid)
      = some (w / 2, h / 2) := by
  simp only [computeLayout, computeLayoutCore]
  rw [resolveOverlaps_center]
  apply scalePositions_center
  rw [convLoop_ids _ _ _ _ _ _ hfa2, createGraph_ids]
  exact hcid

/-- Witness for C1: a 2-node input (center id 7 and coauthor id 3) on a
400×400 viewport with the identity stepper; the center lands at (200, 200). -/
theorem c1_witness :
    ((([⟨7, some 1⟩, ⟨3, some 1⟩] : List (NData ℕ)).map (·.id)).Nodup
      ∧ (7 : ℕ) ∈ ([⟨7, some 1⟩, ⟨3, some 1⟩] : List (NData ℕ)).map (·.id))
    ∧ alookup 7 (computeLayout (fun _ => 1 / 2) (fun q => if q = 1 then 1 else 0)
        (fun _ => 1) (fun _ _ g => g)
        [⟨7, some 1⟩, ⟨3, some 1⟩] [⟨7, 3, some 4⟩] 400 400 7)
      = some ((400 : ℚ) / 2, (400 : ℚ) / 2) :=
  ⟨⟨by decide, by decide⟩,
   c1_center_invariant (fun _ => 1 / 2) (fun q => if q = 1 then 1 else 0)
     (fun _ => 1) (fun _ _ g => g) [⟨7, some 1⟩, ⟨3, some 1⟩] [⟨7, 3, some 4⟩]
     400 400 7 (by decide) (by decide) (fun _ _ _ => rfl)⟩

/-! ### Claim C2: completeness of the position map's key set -/

/-- C2: for every input node list with pairwise-distinct ids (and any
id-preserving ForceAtlas2 stepper), the key list of the position map returned
by computeLayout is exactly the input node id list: every input id has
exactly one entry, in input order, and there are no extra keys. -/
theorem c2_completeness (sinP sqrtP log10P : ℚ → ℚ)
    (fa2 : ℕ → FA2Settings → List (SimNode α) → List (SimNode α))
    (nodes : List (NData α)) (edges : List (EData α)) (w h : ℚ) (cid : α)
    (hnd : (nodes.map (·.id)).Nodup)
    (hfa2 : ∀ k s g, (fa2 k s g).map (·.id) = g.map (·.id)) :
    (computeLayout sinP sqrtP log10P fa2 nodes edges w h cid).map Prod.fst
      = nodes.map (·.id) := by
  simp only [computeLayout, computeLayoutCore]
  rw [resolveOverlaps_keys, keys_scalePositions]
  · rw [convLoop_ids _ _ _ _ _ _ hfa2, createGraph_ids]
  · rw [convLoop_ids _ _ _ _ _ _ hfa2, createGraph_ids]
    exact hnd

/-- Witness for C2: the 2-node input of c1_witness; the key list equals the
input id list [7, 3]. -/
theorem c2_witness :
    ((([⟨7, some 1⟩, ⟨3, some 1⟩] : List (NData ℕ)).map (·.id)).Nodup)
    ∧ (computeLayout (fun _ => 1 / 2) (fun q => if q = 1 then 1 else 0)
        (fun _ => 1) (fun _ _ g => g)
        [⟨7, some 1⟩, ⟨3, some 1⟩] [⟨7, 3, some 4⟩] 400 400 7).map Prod.fst
      = ([⟨7, some 1⟩, ⟨3, some 1⟩] : List (NData ℕ)).map (·.id) :=
  ⟨by decide,
   c2_completeness (fun _ => 1 / 2) (fun q => if q = 1 then 1 else 0)
     (fun _ => 1) (fun _ _ g => g) [⟨7, some 1⟩, ⟨3, some 1⟩] [⟨7, 3, some 4⟩]
     400 400 7 (by decide) (fun _ _ _ => rfl)⟩

/-! ### Claim C6: the pair push of resolveOverlaps -/

/-- C6: in a pass of resolveOverlaps, a pair at positive squared distance
below the squared threshold ((sizeA + sizeB)/2 + minDistance)² is pushed
apart along the line connecting the two nodes: when neither node is the
center, each moves by half the overlap amount (the squared displacement is
(overlap/2)², in opposite directions ±(overlap/(2·dist))·(dx, dy)); when the
candidate node is the center, the center's entry is untouched and the
non-center node absorbs the full correction (squared displacement overlap²);
and across a whole resolveOverlaps run the center's entry is never
modified. -/
theorem c6_overlap_push :
    (∀ (cfg : RCfg α) (idA idB : α) (st : PosMap α × Bool) (pA pB : ℚ × ℚ)
      (dx dy distSq minDist d overlap pushX pushY : ℚ),
      alookup idA st.1 = some pA →
      alookup idB st.1 = some pB →
      idA ≠ idB → idB ≠ cfg.cid →
      dx = pB.1 - pA.1 → dy = pB.2 - pA.2 →
      distSq = dx * dx + dy * dy →
      minDist = (sizeOrTen cfg.sizes idA + sizeOrTen cfg.sizes idB) / 2 + cfg.minDistance →
      0 < distSq → distSq < minDist * minDist → 0 < minDist →
      d = cfg.sqrtP distSq → d * d = distSq → 0 < d →
      overlap = minDist - d →
      pushX = dx / d * overlap * (1 / 2) →
      pushY = dy / d * overlap * (1 / 2) →
      ((processPair cfg idA st idB).2 = true
        ∧ alookup idA (processPair cfg idA st idB).1 = some (pA.1 - pushX, pA.2 - pushY)
        ∧ alookup idB (processPair cfg idA st idB).1 = some (pB.1 + pushX, pB.2 + pushY)
        ∧ 0 < overlap
        ∧ pushX * (2 * d) = dx * overlap
        ∧ pushY * (2 * d) = dy * overlap
        ∧ pushX * pushX + pushY * pushY = (overlap / 2) * (overlap / 2)))
    ∧ (∀ (cfg : RCfg α) (idA idB : α) (st : PosMap α × Bool) (pA pB : ℚ × ℚ)
      (dx dy distSq minDist d overlap pushX pushY : ℚ),
      alookup idA st.1 = some pA →
      alookup idB st.1 = some pB →
      idA ≠ cfg.cid → idB = cfg.cid →
      dx = pB.1 - pA.1 → dy = pB.2 - pA.2 →
      distSq = dx * dx + dy * dy →
      minDist = (sizeOrTen cfg.sizes idA + sizeOrTen cfg.sizes idB) / 2 + cfg.minDistance →
      0 < distSq → distSq < minDist * minDist → 0 < minDist →
      d = cfg.sqrtP distSq → d * d = distSq → 0 < d →
      overlap = minDist - d →
      pushX = dx / d * overlap * (1 / 2) →
      pushY = dy / d * overlap * (1 / 2) →
      ((processPair cfg idA st idB).2 = true
        ∧ alookup idB (processPair cfg idA st idB).1 = alookup idB st.1
        ∧ alookup idA (processPair cfg idA st idB).1
            = some (pA.1 - pushX * 2, pA.2 - pushY * 2)
        ∧ 0 < overlap
        ∧ (pushX * 2) * (pushX * 2) + (pushY * 2) * (pushY * 2) = overlap * overlap))
    ∧ (∀ (sqrtP log10P : ℚ → ℚ) (pos : PosMap α) (nodes : List (NData α)) (cid : α)
        (mD : ℚ) (mI : ℕ),
      alookup cid (resolveOverlaps sqrtP log10P pos nodes cid mD mI) = alookup cid pos) := by
  refine ⟨?_, ?_, fun sqrtP log10P pos nodes cid mD mI =>
    resolveOverlaps_center sqrtP log10P pos nodes cid mD mI⟩
  · intro cfg idA idB st pA pB dx dy distSq minDist d overlap pushX pushY
    intro hlA hlB hAB hBc hdx hdy hdistSq hminDist hpos0 hlt hmd hd hdd hdpos hov hpx hpy
    have eA : lookupD st.1 idA (0, 0) = pA := by simp [lookupD, hlA]
    have eB : lookupD st.1 idB (0, 0) = pB := by simp [lookupD, hlB]
    have hd0 : d ≠ 0 := ne_of_gt hdpos
    have hdlt : d < minDist := by nlinarith
    have hovpos : 0 < overlap := by rw [hov]; linarith
    have hcol1 : pushX * (2 * d) = dx * overlap := by
      rw [hpx]; field_simp
      exact Or.inl (by ring)
    have hcol2 : pushY * (2 * d) = dy * overlap := by
      rw [hpy]; field_simp
      exact Or.inl (by ring)
    have hS : dx * dx + dy * dy = d * d := by rw [hdd, hdistSq]
    have hmag : pushX * pushX + pushY * pushY = (overlap / 2) * (overlap / 2) := by
      rw [hpx, hpy]
      field_simp
      linear_combination (4 * overlap * overlap) * hS
    have hC1 : (pB.1 - pA.1) * (pB.1 - pA.1) + (pB.2 - pA.2) * (pB.2 - pA.2)
        < ((sizeOrTen cfg.sizes idA + sizeOrTen cfg.sizes idB) / 2 + cfg.minDistance)
          * ((sizeOrTen cfg.sizes idA + sizeOrTen cfg.sizes idB) / 2 + cfg.minDistance) := by
      rw [← hdx, ← hdy, ← hdistSq, ← hminDist]; exact hlt
    have hC2 : 0 < (pB.1 - pA.1) * (pB.1 - pA.1) + (pB.2 - pA.2) * (pB.2 - pA.2) := by
      rw [← hdx, ← hdy, ← hdistSq]; exact hpos0
    refine ⟨?_, ?_, ?_, hovpos, hcol1, hcol2, hmag⟩
    · simp only [processPair, eA, eB]
      rw [if_pos ⟨hC1, hC2⟩, if_neg hBc]
    · simp only [processPair, eA, eB]
      rw [if_pos ⟨hC1, hC2⟩, if_neg hBc]
      simp only
      rw [hpx, hpy, hov, hd, hdistSq, hdx, hdy, hminDist]
      rw [alookup_updateEntry_ne idB idA _ _ (Ne.symm hAB),
        alookup_updateEntry_self idA _ st.1 (by rw [hlA]; rfl)]
    · simp only [processPair, eA, eB]
      rw [if_pos ⟨hC1, hC2⟩, if_neg hBc]
      simp only
      rw [hpx, hpy, hov, hd, hdistSq, hdx, hdy, hminDist]
      rw [alookup_updateEntry_self idB _ _ (by
        rw [alookup_updateEntry_ne idA idB _ _ hAB, hlB]; rfl)]
  · intro cfg idA idB st pA pB dx dy distSq minDist d overlap pushX pushY
    intro hlA hlB hAc hBc hdx hdy hdistSq hminDist hpos0 hlt hmd hd hdd hdpos hov hpx hpy
    have eA : lookupD st.1 idA (0, 0) = pA := by simp [lookupD, hlA]
    have eB : lookupD st.1 idB (0, 0) = pB := by simp [lookupD, hlB]
    have hd0 : d ≠ 0 := ne_of_gt hdpos
    have hdlt : d < minDist := by nlinarith
    have hovpos : 0 < overlap := by rw [hov]; linarith
    have hABne : idA ≠ idB := fun he => hAc (he.trans hBc)
    have hS : dx * dx + dy * dy = d * d := by rw [hdd, hdistSq]
    have hmag : (pushX * 2) * (pushX * 2) + (pushY * 2) * (pushY * 2)
        = overlap * overlap := by
      rw [hpx, hpy]
      field_simp
      linear_combination (4 * overlap * overlap) * hS
    have hC1 : (pB.1 - pA.1) * (pB.1 - pA.1) + (pB.2 - pA.2) * (pB.2 - pA.2)
        < ((sizeOrTen cfg.sizes idA + sizeOrTen cfg.sizes idB) / 2 + cfg.minDistance)
          * ((sizeOrTen cfg.sizes idA + sizeOrTen cfg.sizes idB) / 2 + cfg.minDistance) := by
      rw [← hdx, ← hdy, ← hdistSq, ← hminDist]; exact hlt
    have hC2 : 0 < (pB.1 - pA.1) * (pB.1 - pA.1) + (pB.2 - pA.2) * (pB.2 - pA.2) := by
      rw [← hdx, ← hdy, ← hdistSq]; exact hpos0
    refine ⟨?_, ?_, ?_, hovpos, hmag⟩
    · simp only [processPair, eA, eB]
      rw [if_pos ⟨hC1, hC2⟩, if_pos hBc]
    · simp only [processPair, eA, eB]
      rw [if_pos ⟨hC1, hC2⟩, if_pos hBc]
      simp only
      rw [alookup_updateEntry_ne idA idB _ _ hABne]
    · simp only [processPair, eA, eB]
      rw [if_pos ⟨hC1, hC2⟩, if_pos hBc]
      simp only
      rw [hpx, hpy, hov, hd, hdistSq, hdx, hdy, hminDist]
      rw [alookup_updateEntry_self idA _ st.1 (by rw [hlA]; rfl)]

/-- Witness for C6: the pair A = (0,0), B = (20,0) with sizes 10 and
minDistance 15 (threshold 25, distance 20, overlap 5) — in the non-center
case each node moves 5/2 along the x-axis; in the center case (cid = 1) the
center's entry is untouched and A moves the full 5; plus a concrete
resolveOverlaps run preserving the center's entry. -/
theorem c6_witness :
    ((processPair (α := ℕ) ⟨(fun q => if q = 400 then 20 else 0), 99, [], 15, false, 0, 0, []⟩
        0 ([(0, (0, 0)), (1, (20, 0))], false) 1).2 = true
      ∧ alookup 0 (processPair (α := ℕ)
          ⟨(fun q => if q = 400 then 20 else 0), 99, [], 15, false, 0, 0, []⟩
          0 ([(0, (0, 0)), (1, (20, 0))], false) 1).1
        = some ((0 : ℚ) - 20 / 20 * 5 * (1 / 2), (0 : ℚ) - 0 / 20 * 5 * (1 / 2))
      ∧ alookup 1 (processPair (α := ℕ)
          ⟨(fun q => if q = 400 then 20 else 0), 99, [], 15, false, 0, 0, []⟩
          0 ([(0, (0, 0)), (1, (20, 0))], false) 1).1
        = some ((20 : ℚ) + 20 / 20 * 5 * (1 / 2), (0 : ℚ) + 0 / 20 * 5 * (1 / 2)))
    ∧ ((processPair (α := ℕ) ⟨(fun q => if q = 400 then 20 else 0), 1, [], 15, false, 0, 0, []⟩
        0 ([(0, (0, 0)), (1, (20, 0))], false) 1).2 = true
      ∧ alookup 1 (processPair (α := ℕ)
          ⟨(fun q => if q = 400 then 20 else 0), 1, [], 15, false, 0, 0, []⟩
          0 ([(0, (0, 0)), (1, (20, 0))], false) 1).1
        = alookup 1 ([((0 : ℕ), ((0 : ℚ), (0 : ℚ))), (1, (20, 0))] : PosMap ℕ)
      ∧ alookup 0 (processPair (α := ℕ)
          ⟨(fun q => if q = 400 then 20 else 0), 1, [], 15, false, 0, 0, []⟩
          0 ([(0, (0, 0)), (1, (20, 0))], false) 1).1
        = some ((0 : ℚ) - 20 / 20 * 5 * (1 / 2) * 2, (0 : ℚ) - 0 / 20 * 5 * (1 / 2) * 2))
    ∧ alookup 1 (resolveOverlaps (α := ℕ) (fun q => if q = 400 then 20 else 0) (fun _ => 1)
        [(0, (0, 0)), (1, (20, 0))] [⟨0, some 1⟩, ⟨1, some 1⟩] 1 15 1)
      = alookup 1 ([((0 : ℕ), ((0 : ℚ), (0 : ℚ))), (1, (20, 0))] : PosMap ℕ) := by
  obtain ⟨ha, hb, hc⟩ := c6_overlap_push (α := ℕ)
  refine ⟨?_, ?_, hc _ _ _ _ _ _ _⟩
  · have h := ha ⟨(fun q => if q = 400 then 20 else 0), 99, [], 15, false, 0, 0, []⟩
      0 1 ([(0, (0, 0)), (1, (20, 0))], false) (0, 0) (20, 0)
      20 0 400 25 20 5 (20 / 20 * 5 * (1 / 2)) (0 / 20 * 5 * (1 / 2))
      rfl rfl (by decide) (by decide)
      (by norm_num) (by norm_num) (by norm_num)
      (by norm_num [sizeOrTen, alookup])
      (by norm_num) (by norm_num) (by norm_num)
      (by norm_num) (by norm_num) (by norm_num)
      (by norm_num [sizeOrTen, alookup]) rfl rfl
    exact ⟨h.1, h.2.1, h.2.2.1⟩
  · have h := hb ⟨(fun q => if q = 400 then 20 else 0), 1, [], 15, false, 0, 0, []⟩
      0 1 ([(0, (0, 0)), (1, (20, 0))], false) (0, 0) (20, 0)
      20 0 400 25 20 5 (20 / 20 * 5 * (1 / 2)) (0 / 20 * 5 * (1 / 2))
      rfl rfl (by decide) rfl
      (by norm_num) (by norm_num) (by norm_num)
      (by norm_num [sizeOrTen, alookup])
      (by norm_num) (by norm_num) (by norm_num)
      (by norm_num) (by norm_num) (by norm_num)
      (by norm_num [sizeOrTen, alookup]) rfl rfl
    exact ⟨h.1, h.2.1, h.2.2.1⟩

/-! ### Claim C10: coincident nodes and the distSq > 0 guard -/

theorem alookup_mem {β : Type} (k : α) (v : β) (l : List (α × β))
    (h : alookup k l = some v) : (k, v) ∈ l := by
  induction l with
  | nil => simp [alookup] at h
  | cons p t ih =>
    obtain ⟨k2, v2⟩ := p
    by_cases hk : k2 = k
    · subst hk
      simp [alookup] at h
      simp [h]
    · simp [alookup, hk] at h
      exact List.mem_cons_of_mem _ (ih h)

theorem exists_alookup_of_mem_keys {β : Type} (k : α) (l : List (α × β))
    (h : k ∈ l.map Prod.fst) : ∃ v, alookup k l = some v := by
  induction l with
  | nil => simp at h
  | cons p t ih =>
    obtain ⟨k2, v2⟩ := p
    by_cases hk : k2 = k
    · exact ⟨v2, by simp [alookup, hk]⟩
    · simp only [List.map_cons, List.mem_cons] at h
      rcases h with h | h
      · exact absurd h.symm hk
      · simpa [alookup, hk] using ih h

theorem lookupD_coincident (pos : PosMap α) (p : ℚ × ℚ)
    (hpos : ∀ kv ∈ pos, kv.2 = p) (k : α) (hk : k ∈ pos.map Prod.fst) :
    lookupD pos k (0, 0) = p := by
  obtain ⟨v, hv⟩ := exists_alookup_of_mem_keys k pos hk
  have hval := hpos (k, v) (alookup_mem k v pos hv)
  simp only [lookupD, hv, Option.getD_some]
  exact hval

theorem processPair_samepos (cfg : RCfg α) (idA : α) (st : PosMap α × Bool) (idB : α)
    (h : lookupD st.1 idA (0, 0) = lookupD st.1 idB (0, 0)) :
    processPair cfg idA st idB = st := by
  simp only [processPair, h]
  rw [if_neg]
  intro hcond
  obtain ⟨-, h0⟩ := hcond
  simp [sub_self] at h0

omit [DecidableEq α] in
theorem gridInsert_mem (key : ℤ × ℤ) (a : α) (g : List ((ℤ × ℤ) × List α))
    (c : (ℤ × ℤ) × List α) (b : α) (hc : c ∈ gridInsert key a g) (hb : b ∈ c.2) :
    b = a ∨ ∃ c2 ∈ g, b ∈ c2.2 := by
  induction g with
  | nil =>
    simp [gridInsert] at hc
    subst hc
    simp at hb
    exact Or.inl hb
  | cons p t ih =>
    obtain ⟨k2, l2⟩ := p
    by_cases hk : k2 = key
    · simp only [gridInsert, if_pos hk, List.mem_cons] at hc
      rcases hc with hc | hc
      · subst hc
        simp only [List.mem_append, List.mem_singleton] at hb
        rcases hb with hb | hb
        · exact Or.inr ⟨(k2, l2), by simp, hb⟩
        · exact Or.inl hb
      · exact Or.inr ⟨c, by simp [hc], hb⟩
    · simp only [gridInsert, if_neg hk, List.mem_cons] at hc
      rcases hc with hc | hc
      · subst hc
        exact Or.inr ⟨(k2, l2), by simp, hb⟩
      · rcases ih hc with h2 | ⟨c2, hc2, hb2⟩
        · exact Or.inl h2
        · exact Or.inr ⟨c2, by simp [hc2], hb2⟩

omit [DecidableEq α] in
theorem buildGrid_mem (cs : ℚ) (pos : PosMap α) (c : (ℤ × ℤ) × List α) (b : α)
    (hc : c ∈ buildGrid cs pos) (hb : b ∈ c.2) : b ∈ pos.map Prod.fst := by
  have hgen : ∀ (l : PosMap α) (init : List ((ℤ × ℤ) × List α)),
      (∀ c2 ∈ init, ∀ b2 ∈ c2.2, b2 ∈ pos.map Prod.fst) →
      (∀ kv ∈ l, kv.1 ∈ pos.map Prod.fst) →
      ∀ c2 ∈ l.foldl (fun g kv => gridInsert (cellKey cs kv.2.1 kv.2.2) kv.1 g) init,
        ∀ b2 ∈ c2.2, b2 ∈ pos.map Prod.fst := by
    intro l
    induction l with
    | nil =>
      intro init hinit _ c2 hc2 b2 hb2
      exact hinit c2 hc2 b2 hb2
    | cons kv t ih =>
      intro init hinit hl c2 hc2 b2 hb2
      refine ih (gridInsert (cellKey cs kv.2.1 kv.2.2) kv.1 init) ?_
        (fun kv2 hkv2 => hl kv2 (by simp [hkv2])) c2 hc2 b2 hb2
      intro c3 hc3 b3 hb3
      rcases gridInsert_mem _ kv.1 init c3 b3 hc3 hb3 with h | ⟨c4, hc4, hb4⟩
      · rw [h]
        exact hl kv (by simp)
      · exact hinit c4 hc4 b3 hb4
  exact hgen pos [] (by simp) (fun kv hkv => List.mem_map_of_mem Prod.fst hkv) c hc b hb

omit [DecidableEq α] in
theorem foldl_collect {γ : Type} (Q : α → Prop) (l : List γ) (F : List α → γ → List α)
    (hF : ∀ acc x b, b ∈ F acc x → b ∈ acc ∨ Q b) :
    ∀ (acc : List α) (b : α), b ∈ l.foldl F acc → b ∈ acc ∨ Q b := by
  induction l with
  | nil => exact fun acc b h => Or.inl h
  | cons x t ih =>
    intro acc b h
    rcases ih (F acc x) b h with h2 | h2
    · exact hF acc x b h2
    · exact Or.inr h2

theorem getNearby_mem (cs : ℚ) (grid : List ((ℤ × ℤ) × List α)) (pos : PosMap α)
    (a : α) (r : ℚ) (b : α) (hb : b ∈ getNearby cs grid pos a r) :
    ∃ c ∈ grid, b ∈ c.2 := by
  simp only [getNearby] at hb
  have houter := foldl_collect (fun b2 => ∃ c ∈ grid, b2 ∈ c.2) _ _ ?_ [] b hb
  · rcases houter with h | h
    · simp at h
    · exact h
  · intro acc dx b2 hb2
    refine foldl_collect (fun b3 => ∃ c ∈ grid, b3 ∈ c.2) _ _ ?_ acc b2 hb2
    intro acc2 dy b3 hb3
    split at hb3
    · exact Or.inl hb3
    · rename_i cell heq
      simp only [List.mem_append] at hb3
      rcases hb3 with hb3 | hb3
      · exact Or.inl hb3
      · have hcell := List.mem_of_mem_filter hb3
        exact Or.inr ⟨(_, cell), alookup_mem _ _ _ heq, hcell⟩

theorem foldl_processPair_samepos (cfg : RCfg α) (idA : α) (pos : PosMap α) (p : ℚ × ℚ)
    (hpos : ∀ kv ∈ pos, kv.2 = p) (hA : idA ∈ pos.map Prod.fst) :
    ∀ (cands : List α), (∀ b ∈ cands, b ∈ pos.map Prod.fst) →
      ∀ m : Bool, cands.foldl (processPair cfg idA) (pos, m) = (pos, m) := by
  intro cands
  induction cands with
  | nil => intro _ m; rfl
  | cons b t ih =>
    intro hc m
    rw [List.foldl_cons, processPair_samepos cfg idA (pos, m) b
      (by rw [lookupD_coincident pos p hpos idA hA,
        lookupD_coincident pos p hpos b (hc b (by simp))]),
      ih (fun x hx => hc x (by simp [hx])) m]

theorem onePass_coincident (cfg : RCfg α) (grid : List ((ℤ × ℤ) × List α))
    (pos : PosMap α) (p : ℚ × ℚ)
    (hpos : ∀ kv ∈ pos, kv.2 = p)
    (hgrid : ∀ c ∈ grid, ∀ b ∈ c.2, b ∈ pos.map Prod.fst)
    (hids : cfg.nodeIds = pos.map Prod.fst) :
    onePass cfg grid pos = (pos, false) := by
  unfold onePass
  have hsub0 : ∀ a ∈ cfg.nodeIds, a ∈ pos.map Prod.fst := by
    rw [hids]
    exact fun a ha => ha
  have hgen : ∀ (ids : List α), (∀ a ∈ ids, a ∈ pos.map Prod.fst) →
      ids.foldl (passOverA cfg grid) (pos, false) = (pos, false) := by
    intro ids
    induction ids with
    | nil => intro _; rfl
    | cons a t ih =>
      intro hsub
      rw [List.foldl_cons]
      have hstep : passOverA cfg grid (pos, false) a = (pos, false) := by
        unfold passOverA
        split
        · rfl
        · apply foldl_processPair_samepos cfg a pos p hpos (hsub a (by simp))
          intro b hb
          split at hb
          · obtain ⟨c, hc, hbc⟩ := getNearby_mem cfg.cellSize grid _ a cfg.searchRadius b hb
            exact hgrid c hc b hbc
          · exact hsub0 b (List.mem_of_mem_filter hb)
      rw [hstep]
      exact ih fun s hs => hsub s (by simp [hs])
  exact hgen cfg.nodeIds hsub0

theorem iterGo_coincident (cfg : RCfg α) (fuel iter : ℕ)
    (grid : List ((ℤ × ℤ) × List α)) (pos : PosMap α) (p : ℚ × ℚ)
    (hpos : ∀ kv ∈ pos, kv.2 = p)
    (hgrid : ∀ c ∈ grid, ∀ b ∈ c.2, b ∈ pos.map Prod.fst)
    (hids : cfg.nodeIds = pos.map Prod.fst) :
    iterGo cfg fuel iter grid pos = pos := by
  cases fuel with
  | zero => rfl
  | succ f =>
    simp only [iterGo, onePass_coincident cfg grid pos p hpos hgrid hids]
    simp

theorem resolveOverlaps_coincident (sqrtP log10P : ℚ → ℚ) (pos : PosMap α)
    (nodes : List (NData α)) (cid : α) (mD : ℚ) (mI : ℕ) (p : ℚ × ℚ)
    (hpos : ∀ kv ∈ pos, kv.2 = p) :
    resolveOverlaps sqrtP log10P pos nodes cid mD mI = pos := by
  simp only [resolveOverlaps]
  refine iterGo_coincident _ _ _ _ _ p hpos ?_ rfl
  split
  · intro c hc b hb
    exact buildGrid_mem _ pos c b hc hb
  · intro c hc
    simp at hc

/-- C10 counterexample: the claim's consequence "exactly coincident
non-center nodes remain coincident in the resolver's output" is false.  With
nodes 0 and 1 coincident at (0,0), node 2 at (20,0) (all sizes 15,
minDistance 15, threshold 30) and one resolver pass, the sequential pushes
against node 2 land node 0 at (-35/2, 0) and node 1 at (15/4, 0): the
coincident non-center pair has been separated by a third node even though
the pair's own interaction never pushed it. -/
theorem c10_counterexample :
    (alookup 0 ([(0, (0, 0)), (1, (0, 0)), (2, (20, 0))] : PosMap ℕ)
      = alookup 1 ([(0, (0, 0)), (1, (0, 0)), (2, (20, 0))] : PosMap ℕ))
    ∧ (0 : ℕ) ≠ 99 ∧ (1 : ℕ) ≠ 99
    ∧ alookup 0 (resolveOverlaps (α := ℕ) c10sqrt (fun _ => 1)
        [(0, (0, 0)), (1, (0, 0)), (2, (20, 0))]
        [⟨0, some 1⟩, ⟨1, some 1⟩, ⟨2, some 1⟩] 99 15 1)
      ≠ alookup 1 (resolveOverlaps (α := ℕ) c10sqrt (fun _ => 1)
        [(0, (0, 0)), (1, (0, 0)), (2, (20, 0))]
        [⟨0, some 1⟩, ⟨1, some 1⟩, ⟨2, some 1⟩] 99 15 1) := by
  refine ⟨rfl, by decide, by decide, ?_⟩
  norm_num [resolveOverlaps, iterGo, onePass, passOverA, processPair, sizeOrTen,
    alookup, lookupD, updateEntry, setEntry, nodeSize, pcOrOne, c10sqrt,
    List.foldl, List.filter]

/-- C10 amended: resolveOverlaps computes the push dx/dist only under the
guard distSq > 0 — a pair of nodes at exactly equal positions is left
unchanged by its own pair interaction, and an input in which all nodes are
coincident is returned unchanged by the whole resolver.  However, exactly
coincident non-center nodes do not in general remain coincident: sequential
pushes from a third overlapping node can separate them (c10_counterexample). -/
theorem c10_amended :
    (∀ (cfg : RCfg α) (idA : α) (st : PosMap α × Bool) (idB : α),
      lookupD st.1 idA (0, 0) = lookupD st.1 idB (0, 0) →
      processPair cfg idA st idB = st)
    ∧ (∀ (sqrtP log10P : ℚ → ℚ) (pos : PosMap α) (nodes : List (NData α)) (cid : α)
        (mD : ℚ) (mI : ℕ) (p : ℚ × ℚ),
      (∀ kv ∈ pos, kv.2 = p) →
      resolveOverlaps sqrtP log10P pos nodes cid mD mI = pos) :=
  ⟨fun cfg idA st idB h => processPair_samepos cfg idA st idB h,
   fun sqrtP log10P pos nodes cid mD mI p hpos =>
     resolveOverlaps_coincident sqrtP log10P pos nodes cid mD mI p hpos⟩

/-- Witness for C10 amended: two nodes both at (1,2); the pair interaction
leaves the state unchanged, and the full resolver returns the position map
unchanged. -/
theorem c10_witness :
    (lookupD ([(0, (1, 2)), (1, (1, 2))] : PosMap ℕ) 0 (0, 0)
        = lookupD ([(0, (1, 2)), (1, (1, 2))] : PosMap ℕ) 1 (0, 0)
      ∧ processPair (α := ℕ) ⟨(fun _ => 0), 99, [], 15, false, 0, 0, [0, 1]⟩ 0
          (([(0, (1, 2)), (1, (1, 2))] : PosMap ℕ), false) 1
        = (([(0, (1, 2)), (1, (1, 2))] : PosMap ℕ), false))
    ∧ ((∀ kv ∈ ([(0, (1, 2)), (1, (1, 2))] : PosMap ℕ), kv.2 = ((1 : ℚ), (2 : ℚ)))
      ∧ resolveOverlaps (α := ℕ) (fun _ => 0) (fun _ => 0)
          [(0, (1, 2)), (1, (1, 2))] [⟨0, some 1⟩, ⟨1, some 1⟩] 99 15 150
        = [(0, (1, 2)), (1, (1, 2))]) :=
  ⟨⟨rfl, c10_amended.1 ⟨(fun _ => 0), 99, [], 15, false, 0, 0, [0, 1]⟩ 0
      (([(0, (1, 2)), (1, (1, 2))] : PosMap ℕ), false) 1 rfl⟩,
   ⟨by decide, c10_amended.2 (fun _ => 0) (fun _ => 0)
      [(0, (1, 2)), (1, (1, 2))] [⟨0, some 1⟩, ⟨1, some 1⟩] 99 15 150
      ((1 : ℚ), (2 : ℚ)) (by decide)⟩⟩

/-! ### Claim C3: the iteration ceiling of the batch loop -/

theorem convLoop_exit (fa2 : ℕ → FA2Settings → List (SimNode α) → List (SimNode α))
    (st : FA2Settings) (batchSize maxIter : ℕ) (threshold : ℚ) (sqrtP : ℚ → ℚ)
    (fuel total : ℕ) (g : List (SimNode α)) (h : ¬total < maxIter) :
    convLoop fa2 st batchSize maxIter threshold sqrtP fuel total g = (g, total) := by
  cases fuel with
  | zero => rfl
  | succ f => simp only [convLoop, if_neg h]

omit [DecidableEq α] in
theorem ids_shiftG (g : List (SimNode α)) : (shiftG g).map (·.id) = g.map (·.id) := by
  simp only [shiftG, List.map_map]
  rfl

omit [DecidableEq α] in
theorem length_shiftG (g : List (SimNode α)) : (shiftG g).length = g.length := by
  simp [shiftG]

theorem totalMovement_skip (sqrtP : ℚ → ℚ) (k : α) (pv : ℚ × ℚ) (prev : PosMap α)
    (l : List (SimNode α)) (hk : ∀ n ∈ l, n.id ≠ k) :
    totalMovement sqrtP ((k, pv) :: prev) l = totalMovement sqrtP prev l := by
  induction l with
  | nil => rfl
  | cons n t ih =>
    simp only [totalMovement, alookup]
    rw [if_neg fun he => hk n (by simp) he.symm,
      ih fun s hs => hk s (by simp [hs])]

theorem totalMovement_shift (g : List (SimNode α)) (hnd : (g.map (·.id)).Nodup) :
    totalMovement sqrtFive (snapshot g) (shiftG g) = 5 * (g.length : ℚ) := by
  induction g with
  | nil => simp [totalMovement, shiftG, snapshot]
  | cons n t ih =>
    have hnd2 : (t.map (·.id)).Nodup := by
      simp only [List.map_cons, List.nodup_cons] at hnd
      exact hnd.2
    have hhead : n.id ∉ t.map (·.id) := by
      simp only [List.map_cons, List.nodup_cons] at hnd
      exact hnd.1
    simp only [shiftG, List.map_cons, snapshot, totalMovement]
    rw [show alookup n.id ((n.id, (n.x, n.y)) :: t.map fun m => (m.id, (m.x, m.y)))
      = some (n.x, n.y) from by simp [alookup]]
    simp only []
    have harg : (n.x + 3 - n.x) * (n.x + 3 - n.x) + (n.y + 4 - n.y) * (n.y + 4 - n.y)
        = 25 := by ring
    rw [harg, show sqrtFive 25 = 5 from by norm_num [sqrtFive]]
    rw [totalMovement_skip sqrtFive n.id (n.x, n.y) (t.map fun m => (m.id, (m.x, m.y))) _ ?_]
    · have ih2 := ih hnd2
      simp only [shiftG, snapshot] at ih2
      rw [ih2]
      simp only [List.length_cons]
      push_cast
      ring
    · intro m hm
      simp only [List.mem_map] at hm
      obtain ⟨m0, hm0, hme⟩ := hm
      rw [← hme]
      intro he
      exact hhead (he ▸ List.mem_map_of_mem (·.id) hm0)

theorem convLoop_shift_total :
    ∀ (fuel total : ℕ) (g : List (SimNode ℕ)) (st : FA2Settings),
      (g.map (·.id)).Nodup → g.length = 600 →
      150 ∣ total → total < 2000 → 2100 ≤ total + 150 * fuel →
      (convLoop shiftFA2 st 150 2000 600 sqrtFive fuel total g).2 = 2100 := by
  intro fuel
  induction fuel with
  | zero => intro total g st _ _ _ hlt hge; omega
  | succ f ih =>
    intro total g st hnd hlen hdvd hlt hge
    simp only [convLoop, if_pos hlt, shiftFA2]
    have hmov : totalMovement sqrtFive (snapshot g) (shiftG g) = 5 * (g.length : ℚ) :=
      totalMovement_shift g hnd
    have hnot : ¬totalMovement sqrtFive (snapshot g) (shiftG g) < (600 : ℚ) := by
      rw [hmov, hlen]
      norm_num
    rw [if_neg hnot]
    by_cases hc : total + 150 < 2000
    · exact ih (total + 150) (shiftG g) st (by rw [ids_shiftG]; exact hnd)
        (by rw [length_shiftG]; exact hlen) (by omega) hc (by omega)
    · have htot : total + 150 = 2100 := by omega
      rw [htot, convLoop_exit _ _ _ _ _ _ _ _ _ (by omega)]

theorem convLoop_total_lt (fa2 : ℕ → FA2Settings → List (SimNode α) → List (SimNode α))
    (st : FA2Settings) (batchSize maxIter : ℕ) (threshold : ℚ) (sqrtP : ℚ → ℚ) :
    ∀ (fuel total : ℕ) (g : List (SimNode α)), total < maxIter + batchSize →
      (convLoop fa2 st batchSize maxIter threshold sqrtP fuel total g).2
        < maxIter + batchSize := by
  intro fuel
  induction fuel with
  | zero => intro total g h; exact h
  | succ f ih =>
    intro total g h
    simp only [convLoop]
    split
    · split
      · rename_i hlt _
        omega
      · rename_i hlt _
        exact ih (total + batchSize) _ (by omega)
    · exact h

theorem convLoop_total_dvd (fa2 : ℕ → FA2Settings → List (SimNode α) → List (SimNode α))
    (st : FA2Settings) (batchSize maxIter : ℕ) (threshold : ℚ) (sqrtP : ℚ → ℚ) :
    ∀ (fuel total : ℕ) (g : List (SimNode α)), batchSize ∣ total →
      batchSize ∣ (convLoop fa2 st batchSize maxIter threshold sqrtP fuel total g).2 := by
  intro fuel
  induction fuel with
  | zero => intro total g h; exact h
  | succ f ih =>
    intro total g h
    simp only [convLoop]
    split
    · split
      · exact Dvd.dvd.add h dvd_rfl
      · exact ih (total + batchSize) _ (Dvd.dvd.add h dvd_rfl)
    · exact h

/-- The batch-loop observer unfolded to the convergence loop (definitional).
Stated as an equation so concrete instances can be rewritten without forcing
evaluation of the loop. -/
theorem computeLayoutIterations_eq (sinP sqrtP : ℚ → ℚ)
    (fa2 : ℕ → FA2Settings → List (SimNode α) → List (SimNode α))
    (nodes : List (NData α)) (edges : List (EData α)) (w h : ℚ) (cid : α) :
    computeLayoutIterations sinP sqrtP fa2 nodes edges w h cid
      = (convLoop fa2 (getAdaptiveFA2Settings nodes.length) (batchSizeFor nodes.length)
          (maxIterationsFor nodes.length) (convergenceThresholdFor nodes.length) sqrtP
          (maxIterationsFor nodes.length + 1) 0
          (createGraph sinP sqrtP nodes edges w h cid).nodes).2 :=
  rfl

/-- C3 counterexample: on a 600-node input (tier 501-1000: nominal ceiling
2000, batch size 150) and a ForceAtlas2 stepper whose displacement never
falls below the threshold, the batch loop performs 2100 simulation
iterations: the loop condition totalIterations < maxIterations allows one
more full batch from 1950, overshooting the claimed 2000-iteration ceiling. -/
theorem c3_counterexample :
    computeLayoutIterations (fun _ => 0) sqrtFive shiftFA2 c3Nodes
        ([] : List (EData ℕ)) 1000 1000 777 = 2100
    ∧ 2000 < 2100
    ∧ c3Nodes.length = 600 := by
  have hlen : c3Nodes.length = 600 := by
    unfold c3Nodes
    rw [List.length_map, List.length_range]
  refine ⟨?_, by norm_num, hlen⟩
  rw [computeLayoutIterations_eq, hlen]
  have hbs : batchSizeFor 600 = 150 := by norm_num [batchSizeFor]
  have hmi : maxIterationsFor 600 = 2000 := by norm_num [maxIterationsFor]
  have hth : convergenceThresholdFor 600 = 600 := by norm_num [convergenceThresholdFor]
  rw [hbs, hmi, hth]
  have hids : c3Nodes.map (·.id) = List.range 600 := by
    unfold c3Nodes
    rw [List.map_map]
    exact List.map_id _
  refine convLoop_shift_total (2000 + 1) 0 _ _ ?_ ?_ (dvd_zero 150) (by norm_num) (by norm_num)
  · rw [createGraph_ids, hids]
    exact List.nodup_range 600
  · rw [createGraph_nodes, List.length_map, List.enum_length]
    exact hlen

/-- C3 amended: the batch loop's totalIterations never exceeds 3000 for up
to 500 nodes and 1500 above 1000 nodes, as claimed; but for 501–1000 nodes
(nominal ceiling 2000, batch 150, which does not divide 2000) the loop can
perform up to 2100 = ⌈2000/150⌉·150 iterations — the ceiling can be
overshot by one partial batch, never more. -/
theorem c3_amended (sinP sqrtP : ℚ → ℚ)
    (fa2 : ℕ → FA2Settings → List (SimNode α) → List (SimNode α))
    (nodes : List (NData α)) (edges : List (EData α)) (w h : ℚ) (cid : α) :
    computeLayoutIterations sinP sqrtP fa2 nodes edges w h cid
      ≤ (if nodes.length ≤ 500 then 3000
         else if nodes.length ≤ 1000 then 2100 else 1500) := by
  rw [computeLayoutIterations_eq]
  have hlt := convLoop_total_lt fa2 (getAdaptiveFA2Settings nodes.length)
    (batchSizeFor nodes.length) (maxIterationsFor nodes.length)
    (convergenceThresholdFor nodes.length) sqrtP (maxIterationsFor nodes.length + 1) 0
    (createGraph sinP sqrtP nodes edges w h cid).nodes ?_
  · have hdvd := convLoop_total_dvd fa2 (getAdaptiveFA2Settings nodes.length)
      (batchSizeFor nodes.length) (maxIterationsFor nodes.length)
      (convergenceThresholdFor nodes.length) sqrtP (maxIterationsFor nodes.length + 1) 0
      (createGraph sinP sqrtP nodes edges w h cid).nodes (dvd_zero _)
    by_cases h1 : nodes.length ≤ 500
    · have hb : batchSizeFor nodes.length = 100 := by
        unfold batchSizeFor
        rw [if_neg (by omega)]
      have hm : maxIterationsFor nodes.length = 3000 := by
        unfold maxIterationsFor
        rw [if_neg (by omega), if_neg (by omega)]
      rw [hb, hm] at hlt hdvd
      rw [hb, hm, if_pos h1]
      omega
    · by_cases h2 : nodes.length ≤ 1000
      · have hb : batchSizeFor nodes.length = 150 := by
          unfold batchSizeFor
          rw [if_pos (by omega)]
        have hm : maxIterationsFor nodes.length = 2000 := by
          unfold maxIterationsFor
          rw [if_neg (by omega), if_pos (by omega)]
        rw [hb, hm] at hlt hdvd
        rw [hb, hm, if_neg h1, if_pos h2]
        omega
      · have hb : batchSizeFor nodes.length = 150 := by
          unfold batchSizeFor
          rw [if_pos (by omega)]
        have hm : maxIterationsFor nodes.length = 1500 := by
          unfold maxIterationsFor
          rw [if_pos (by omega)]
        rw [hb, hm] at hlt hdvd
        rw [hb, hm, if_neg h1, if_neg h2]
        omega
  · have : 0 < batchSizeFor nodes.length := by
      unfold batchSizeFor
      split <;> omega
    omega

end CoauthorLayout
